/-
Verification of the geodesic "midpoint meetup" toolset (team-tpg).

This file gives a shallow embedding, over the real numbers, of the core
numeric and combinatorial routines of the repository:

* the Web-Worker JS fallback kernel (`haversineDistance`, `geodesicMidpoint`,
  `findBestCombinationsJS`, the progress protocol) from `lib/geo-worker.js`;
* the Turf.js-based kernel used on the main thread (`turf.distance`,
  `turf.bearing`, `turf.destination`, `turf.midpoint`) and
  `GeoCalc.calculateReflection` from `geo-calc.js` / `lib/geo-calc.js`;
* the offload threshold (`GeoWorkerAPI.shouldUseWorker`) and an operational
  model of the dispatcher's initialization protocol from `lib/geo-worker-api.js`;
* the grid-accelerated city query (`cities.js`);
* the coverage-heatmap flood fill (`finder.js`).

JavaScript numbers are modelled as real numbers (ℝ); `Math.floor` on a real
becomes `Int.floor`; JS array indices become `ℕ`; `Array.prototype.sort`
(required stable by ES2019, invoked with the comparator
`(a, b) => a.score - b.score`) is modelled by the stable `List.mergeSort`
on the `≤` ordering of scores; `Array.prototype.slice(0, end)` keeps its
JS semantics for negative `end`.
-/
import Mathlib

open Real

noncomputable section

/-- JavaScript `Math.atan2(y, x)`: the argument of the complex number
`x + y·i`, in `(-π, π]`, with `atan2 0 0 = 0` (as in JS for `+0`). -/
def atan2 (y x : ℝ) : ℝ := Complex.arg (x + y * Complex.I)

/-- Degrees to radians, `deg * Math.PI / 180`. -/
def toRad (d : ℝ) : ℝ := d * π / 180

/-- Radians to degrees, `r * 180 / Math.PI`. -/
def toDeg (r : ℝ) : ℝ := r * 180 / π

/-- A geographic point `{lat, lng}`, in degrees. -/
structure Point where
  lat : ℝ
  lng : ℝ

instance : Inhabited Point := ⟨⟨0, 0⟩⟩

/-! ## The worker's JS fallback kernel (`lib/geo-worker.js`) -/
/-- The `EARTH_RADIUS_KM` of the worker's JS fallback. -/
def EARTH_RADIUS_KM : ℝ := 6371

/-- The `haversineDistance(lat1, lon1, lat2, lon2)` from `lib/geo-worker.js`:
haversine great-circle distance in km on a sphere of radius 6371 km. -/
def haversineDistance (lat1 lon1 lat2 lon2 : ℝ) : ℝ :=
  let lat1Rad := toRad lat1
  let lat2Rad := toRad lat2
  let deltaLat := toRad (lat2 - lat1)
  let deltaLon := toRad (lon2 - lon1)
  let a := sin (deltaLat / 2) ^ 2 +
    cos lat1Rad * cos lat2Rad * sin (deltaLon / 2) ^ 2
  let c := 2 * arcsin (Real.sqrt a)
  EARTH_RADIUS_KM * c

/-- The `geodesicMidpoint(lat1, lon1, lat2, lon2)` from `lib/geo-worker.js`:
returns `[latMid, lonMid]` in degrees.  The longitude is
`lon1 + atan2(by, cos(lat1) + bx)` — computed, not normalized. -/
def geodesicMidpoint (lat1 lon1 lat2 lon2 : ℝ) : ℝ × ℝ :=
  let lat1Rad := toRad lat1
  let lon1Rad := toRad lon1
  let lat2Rad := toRad lat2
  let lon2Rad := toRad lon2
  let deltaLon := lon2Rad - lon1Rad
  let bx := cos lat2Rad * cos deltaLon
  let by' := cos lat2Rad * sin deltaLon
  let latMid := atan2 (sin lat1Rad + sin lat2Rad)
    (Real.sqrt ((cos lat1Rad + bx) ^ 2 + by' ^ 2))
  let lonMid := lon1Rad + atan2 by' (cos lat1Rad + bx)
  (toDeg latMid, toDeg lonMid)

/-! ## The Turf.js kernel used on the main thread

`geo-calc.js` and `finder.js` call into the external Turf.js library.  The
following definitions embed Turf's implementations (`@turf/distance`,
`@turf/bearing`, `@turf/destination`, `@turf/midpoint`, all on a sphere of
radius `earthRadius = 6371008.8 m`). -/
/-- Turf's `earthRadius`, in kilometers. -/
def turfEarthRadiusKm : ℝ := 6371.0088

/-- The `turf.distance(p1, p2, {units: 'kilometers'})`. -/
def turfDistance (p1 p2 : Point) : ℝ :=
  let dLat := toRad (p2.lat - p1.lat)
  let dLon := toRad (p2.lng - p1.lng)
  let lat1 := toRad p1.lat
  let lat2 := toRad p2.lat
  let a := sin (dLat / 2) ^ 2 + sin (dLon / 2) ^ 2 * cos lat1 * cos lat2
  2 * atan2 (Real.sqrt a) (Real.sqrt (1 - a)) * turfEarthRadiusKm

/-- The `turf.bearing(p1, p2)`, in degrees in `(-180, 180]`. -/
def turfBearing (p1 p2 : Point) : ℝ :=
  let lon1 := toRad p1.lng
  let lon2 := toRad p2.lng
  let lat1 := toRad p1.lat
  let lat2 := toRad p2.lat
  let a := sin (lon2 - lon1) * cos lat2
  let b := cos lat1 * sin lat2 - sin lat1 * cos lat2 * cos (lon2 - lon1)
  toDeg (atan2 a b)

/-- The `turf.destination(origin, distance, bearing, {units:'kilometers'})`. -/
def turfDestination (origin : Point) (distance bearing : ℝ) : Point :=
  let longitude1 := toRad origin.lng
  let latitude1 := toRad origin.lat
  let bearingRad := toRad bearing
  let radians := distance / turfEarthRadiusKm
  let latitude2 := arcsin (sin latitude1 * cos radians +
    cos latitude1 * sin radians * cos bearingRad)
  let longitude2 := longitude1 + atan2
    (sin bearingRad * sin radians * cos latitude1)
    (cos radians - sin latitude1 * sin latitude2)
  ⟨toDeg latitude2, toDeg longitude2⟩

/-- The `turf.midpoint(p1, p2)`: destination from `p1` at half the distance
along the initial bearing towards `p2`. -/
def turfMidpoint (p1 p2 : Point) : Point :=
  turfDestination p1 (turfDistance p1 p2 / 2) (turfBearing p1 p2)

/-! ## `GeoCalc.calculateReflection` -/
/-- The `GeoCalc.MAX_DISTANCE_KM` (both copies of `geo-calc.js`). -/
def MAX_DISTANCE_KM : ℝ := 20000

/-- The `GeoCalc.ANTIPODAL_THRESHOLD_KM` (`lib/geo-calc.js`): beyond this, the
midpoint of source and reflection approaches the antipodal point. -/
def ANTIPODAL_THRESHOLD_KM : ℝ := 10000

/-- The record returned by `calculateReflection`. -/
structure Reflection where
  lat : ℝ
  lng : ℝ
  distance : ℝ

/-- The `GeoCalc.calculateReflection(source, target)` from `lib/geo-calc.js`
(the copy with the `distanceKm * 2` fix): travel from `source`, along the
initial bearing towards `target`, for twice the source→target distance;
`null` when the distance exceeds `MAX_DISTANCE_KM`. -/
def calculateReflection (source target : Point) : Option Reflection :=
  let distanceKm := turfDistance source target
  if MAX_DISTANCE_KM < distanceKm then none
  else
    let bearing := turfBearing source target
    let reflectionPoint := turfDestination source (distanceKm * 2) bearing
    some ⟨reflectionPoint.lat, reflectionPoint.lng, distanceKm⟩

/-- The `GeoCalc.calculateReflection(source, target)` from the root
`geo-calc.js` (the older copy): travel from `target` for the same distance
along the initial bearing measured at `source`. -/
def calculateReflectionRoot (source target : Point) : Option Reflection :=
  let distanceKm := turfDistance source target
  if MAX_DISTANCE_KM < distanceKm then none
  else
    let bearing := turfBearing source target
    let reflectionPoint := turfDestination target distanceKm bearing
    some ⟨reflectionPoint.lat, reflectionPoint.lng, distanceKm⟩

/-! ## Unit-sphere vectors

For the geometric proofs we map a `Point` to its unit vector in ℝ³ and
express the Turf formulas through dot products with the local
north/east frame.  These are proof devices, not part of the embedding. -/
/-- The unit vector of a point on the sphere. -/
def sphVec (p : Point) : ℝ × ℝ × ℝ :=
  (cos (toRad p.lat) * cos (toRad p.lng),
   cos (toRad p.lat) * sin (toRad p.lng),
   sin (toRad p.lat))

/-- The unit tangent pointing due north at `p`. -/
def northVec (p : Point) : ℝ × ℝ × ℝ :=
  (-(sin (toRad p.lat) * cos (toRad p.lng)),
   -(sin (toRad p.lat) * sin (toRad p.lng)),
   cos (toRad p.lat))

/-- The unit tangent pointing due east at `p`. -/
def eastVec (p : Point) : ℝ × ℝ × ℝ :=
  (-(sin (toRad p.lng)), cos (toRad p.lng), 0)

/-- Euclidean inner product on ℝ³. -/
def dot3 (u v : ℝ × ℝ × ℝ) : ℝ :=
  u.1 * v.1 + u.2.1 * v.2.1 + u.2.2 * v.2.2

def add3 (u v : ℝ × ℝ × ℝ) : ℝ × ℝ × ℝ :=
  (u.1 + v.1, u.2.1 + v.2.1, u.2.2 + v.2.2)

def smul3 (r : ℝ) (u : ℝ × ℝ × ℝ) : ℝ × ℝ × ℝ :=
  (r * u.1, r * u.2.1, r * u.2.2)

/-! ## CombinationSearch: the worker's JS fallback `findBestCombinationsJS` -/
/-- One entry of the worker's `results` array:
`{indexA, indexB, score, midpoint}`. -/
structure Combo where
  indexA : ℕ
  indexB : ℕ
  score : ℝ
  midLat : ℝ
  midLng : ℝ

/-- The JS sort comparator `(a, b) => a.score - b.score`, as the Boolean
relation "sorts no later than": `a.score ≤ b.score`. -/
def comboLe (a b : Combo) : Bool := decide (a.score ≤ b.score)

/-- The row-major cross-product scan of `findBestCombinationsJS`: outer
loop over `pointsA` (index `i`), inner loop over `pointsB` (index `j`),
pushing `{indexA: i, indexB: j, score, midpoint}` in encounter order. -/
def allCombos (pointsA pointsB : List Point) (targetLat targetLon : ℝ) :
    List Combo :=
  (List.range pointsA.length).flatMap fun i =>
    (List.range pointsB.length).map fun j =>
      let latA := (pointsA.getD i default).lat
      let lonA := (pointsA.getD i default).lng
      let latB := (pointsB.getD j default).lat
      let lonB := (pointsB.getD j default).lng
      let mid := geodesicMidpoint latA lonA latB lonB
      { indexA := i, indexB := j,
        score := haversineDistance mid.1 mid.2 targetLat targetLon,
        midLat := mid.1, midLng := mid.2 }

/-- JavaScript `Array.prototype.slice(0, end)`: a negative `end` counts
from the end of the array. -/
def jsSlice {α : Type} (l : List α) (e : ℤ) : List α :=
  if e < 0 then l.take (l.length + e).toNat else l.take e.toNat

/-- Embedding of `findBestCombinationsJS(pointsA, pointsB, targetLat,
targetLon, topN)` from `lib/geo-worker.js`: score every pair, sort
ascending by score with the stable `Array.prototype.sort`, and return
`results.slice(0, topN)`. -/
def findBestCombinationsJS (pointsA pointsB : List Point)
    (targetLat targetLon : ℝ) (topN : ℤ) : List Combo :=
  jsSlice ((allCombos pointsA pointsB targetLat targetLon).mergeSort comboLe)
    topN

/-- The row-major encounter order on index pairs: `(i1,j1)` before
`(i2,j2)` iff `i1 < i2`, or `i1 = i2` and `j1 < j2`. -/
def pairLt (p q : ℕ × ℕ) : Prop :=
  p.1 < q.1 ∨ (p.1 = q.1 ∧ p.2 < q.2)

instance : DecidablePred fun pq : (ℕ × ℕ) × ℕ × ℕ => pairLt pq.1 pq.2 :=
  fun pq => by
    unfold pairLt
    infer_instance

/-- The full list of index pairs in row-major encounter order. -/
def crossPairs (n m : ℕ) : List (ℕ × ℕ) :=
  (List.range n).flatMap fun i => (List.range m).map fun j => (i, j)

/-- The scoring function of one scan entry, as a function of the index
pair. -/
def comboAt (A B : List Point) (tlat tlon : ℝ) (i j : ℕ) : Combo :=
  let latA := (A.getD i default).lat
  let lonA := (A.getD i default).lng
  let latB := (B.getD j default).lat
  let lonB := (B.getD j default).lng
  let mid := geodesicMidpoint latA lonA latB lonB
  Combo.mk i j (haversineDistance mid.1 mid.2 tlat tlon) mid.1 mid.2

/-! ## C5: the offload threshold -/
/-- The `GeoWorkerAPI.WORKER_THRESHOLD` from `lib/geo-worker-api.js`. -/
def WORKER_THRESHOLD : ℕ := 10000

/-- The `GeoWorkerAPI.shouldUseWorker(numA, numB)`:
`numA * numB >= WORKER_THRESHOLD`.  This is the `shouldOffload` decision;
`finder.js` inlines the same test (`totalCombos >= 10000`). -/
def shouldUseWorker (numA numB : ℕ) : Bool := WORKER_THRESHOLD ≤ numA * numB

/-! ## C6: the worker message protocol

Source: `geo-worker.js` (src/unnamed/part_002), lines 109–151 and 215–297.
The JS fallback loops of `findBestCombinationsJS` and
`calculateAllMidpointsJS` increment `processed` from 1 to
`pointsA.length * pointsB.length` in row-major order and report
`Math.floor((processed / total) * 100)` whenever it exceeds the last
reported value (`lastProgress`, initially 0); since only `processed`
matters, the double loop is modelled by a single fold over
`List.range total`.  The `self.onmessage` handler posts these progress
events, then exactly one `result` message; in the WASM branch it posts
`progress 0`, calls the WASM kernel (whose outcome is a parameter of the
model, since the kernel is external to this repository), then either
`progress 100` and `result`, or — if the kernel throws — the `catch`
posts a single `error` message. -/
/-- One step of the progress-reporting loop: after processing combination
number `k + 1` of `total`, the percentage `floor((processed / total) * 100)`
is computed and appended to the emitted list exactly when it exceeds
`lastProgress`.  The state is `(lastProgress, emitted list)`. -/
def progressStep (total : ℕ) (st : ℤ × List ℤ) (k : ℕ) : ℤ × List ℤ :=
  let progress : ℤ := ⌊((k : ℝ) + 1) / (total : ℝ) * 100⌋
  if st.1 < progress then (progress, st.2 ++ [progress]) else st

/-- The sequence of percent values reported by a JS fallback loop over
`total` combinations, starting from `lastProgress = 0`. -/
def progressSeq (total : ℕ) : List ℤ :=
  ((List.range total).foldl (progressStep total) (0, [])).2

/-- The `calculateAllMidpointsJS(pointsA, pointsB)` (geo-worker.js, lines
156–185): the row-major list of geodesic midpoints of all pairs. -/
def calculateAllMidpointsJS (pointsA pointsB : List Point) : List (ℝ × ℝ) :=
  pointsA.flatMap fun a =>
    pointsB.map fun b => geodesicMidpoint a.lat a.lng b.lat b.lng

/-- Payload of a worker `result` message: either the combination-search
results together with `totalCombinations`, or the list of midpoints. -/
inductive WData where
  | combos (results : List Combo) (totalCombinations : ℕ)
  | midpoints (mids : List (ℝ × ℝ))

/-- Messages posted by the worker via `self.postMessage`. -/
inductive WMsg where
  | ready (wasm : Bool)
  | progress (id : ℕ) (percent : ℤ)
  | result (id : ℕ) (data : WData)
  | error (id : ℕ) (message : String)

/-- Messages posted while handling one `findBestCombinations` request
(geo-worker.js, lines 223–259).  `wasmR` is the worker's `wasmReady`
flag; `wasmFind` is the outcome of the external WASM kernel call
(`Except.error` when the call throws, caught by the handler). -/
def workerFindMessages (wasmR : Bool) (wasmFind : Except String (List Combo))
    (id : ℕ) (pointsA pointsB : List Point) (targetLat targetLon : ℝ)
    (topN : ℤ) : List WMsg :=
  match wasmR with
  | true =>
    match wasmFind with
    | Except.ok results =>
        [WMsg.progress id 0, WMsg.progress id 100,
         WMsg.result id (WData.combos results (pointsA.length * pointsB.length))]
    | Except.error e =>
        [WMsg.progress id 0, WMsg.error id e]
  | false =>
    (progressSeq (pointsA.length * pointsB.length)).map (WMsg.progress id) ++
      [WMsg.result id (WData.combos
        (findBestCombinationsJS pointsA pointsB targetLat targetLon topN)
        (pointsA.length * pointsB.length))]

/-- Messages posted while handling one `calculateAllMidpoints` request
(geo-worker.js, lines 261–296). -/
def workerMidMessages (wasmR : Bool)
    (wasmMid : Except String (List (ℝ × ℝ)))
    (id : ℕ) (pointsA pointsB : List Point) : List WMsg :=
  match wasmR with
  | true =>
    match wasmMid with
    | Except.ok mids =>
        [WMsg.progress id 0, WMsg.progress id 100,
         WMsg.result id (WData.midpoints mids)]
    | Except.error e =>
        [WMsg.progress id 0, WMsg.error id e]
  | false =>
    (progressSeq (pointsA.length * pointsB.length)).map (WMsg.progress id) ++
      [WMsg.result id (WData.midpoints (calculateAllMidpointsJS pointsA pointsB))]

/-! ## C7: the dispatcher initialization protocol

Source: `GeoWorkerAPI` (src/unnamed/part_001, lines 259–411).  `init()`
returns `Promise.resolve()` immediately when `this.worker` is already
non-null (lines 273–275), without consulting `isReady`; otherwise it
creates the worker, posts `{type: 'init'}`, and resolves only when the
worker's `ready` reply arrives.  `findBestCombinations` and
`calculateAllMidpoints` do `await this.init()` and then post their
request.  The model is a transition system: each caller of a request
method advances through phases, and every posted message records the
value of `readyReceived` at the moment it is posted, so that "a request
was posted before the ready reply" is directly observable. -/
/-- Phase of one caller of `findBestCombinations` or
`calculateAllMidpoints`: it has entered the method and is about to call
`init()`; its `init()` took the creation path and awaits `ready`; its
`await this.init()` has resolved; or it has posted its request. -/
inductive CallerPhase where
  | started
  | awaitingReady
  | initDone
  | requested
deriving DecidableEq

/-- Resolution of the in-flight `init()` promise when `ready` arrives:
callers awaiting `ready` become resolved, all other phases are unchanged. -/
def resolveAwait : CallerPhase → CallerPhase
  | CallerPhase.awaitingReady => CallerPhase.initDone
  | p => p

/-- Messages posted to the worker: the `{type: 'init'}` message or a
request (`findBestCombinations` / `calculateAllMidpoints`) from caller
`c`. -/
inductive PostedMsg where
  | initMsg
  | request (c : ℕ)
deriving DecidableEq

/-- State of the dispatcher: whether `this.worker` is non-null, whether
the worker's `ready` reply has been received, the phase of each caller,
and the log of posted messages, each tagged with the value of
`readyReceived` at post time. -/
structure DState where
  workerExists : Bool
  readyReceived : Bool
  callers : List CallerPhase
  posted : List (PostedMsg × Bool)

/-- One step of the dispatcher, following the source: `initCreate` is
`init()` with `this.worker == null` (creates the worker, posts `init`,
and leaves the caller awaiting `ready`); `initBypass` is `init()` with
`this.worker != null` (lines 273–275: resolves immediately, whatever
`isReady` is); `readyArrive` is the worker's `ready` reply (resolves the
in-flight initialization); `sendReq` is a caller whose `await
this.init()` has resolved posting its request message. -/
inductive DStep : DState → DState → Prop where
  | initCreate (s : DState) (c : ℕ)
      (hc : s.callers[c]? = some CallerPhase.started)
      (hw : s.workerExists = false) :
      DStep s ⟨true, s.readyReceived,
        s.callers.set c CallerPhase.awaitingReady,
        s.posted ++ [(PostedMsg.initMsg, s.readyReceived)]⟩
  | initBypass (s : DState) (c : ℕ)
      (hc : s.callers[c]? = some CallerPhase.started)
      (hw : s.workerExists = true) :
      DStep s ⟨s.workerExists, s.readyReceived,
        s.callers.set c CallerPhase.initDone, s.posted⟩
  | readyArrive (s : DState)
      (hw : s.workerExists = true) (hr : s.readyReceived = false) :
      DStep s ⟨s.workerExists, true, s.callers.map resolveAwait, s.posted⟩
  | sendReq (s : DState) (c : ℕ)
      (hc : s.callers[c]? = some CallerPhase.initDone) :
      DStep s ⟨s.workerExists, s.readyReceived,
        s.callers.set c CallerPhase.requested,
        s.posted ++ [(PostedMsg.request c, s.readyReceived)]⟩

/-- Predicate selecting the `{type: 'init'}` message. -/
def isInitMsg : PostedMsg → Bool
  | PostedMsg.initMsg => true
  | PostedMsg.request _ => false

/-- Number of `{type: 'init'}` messages in the posted log (equivalently,
the number of times a worker context was created). -/
def initCount (posted : List (PostedMsg × Bool)) : ℕ :=
  (posted.filter fun pm => isInitMsg pm.1).length

/-! ## C8: the cities grid query path

Source: `src/cities.js`.  `loadGridFile(gridKey)` (lines 71–87) fetches
`grid_<key>.json`; on a fetch/parse error the `catch` returns `[]`.
`findBestCombinations(target, maxResults = 50)` (lines 167–214) walks the
radii 500…20000 km, collects candidate pairs from the grid cells near the
target (resetting `allCandidates` on every radius round whose key list is
nonempty), breaks once enough candidates are found, then scores, sorts
and slices.  The fetch outcome for each grid key is a parameter `env` of
the model (`Except.error` = rejected fetch / JSON parse failure); the
grid index `gridIndex` is a parameter `gIdx`.  The per-session
`gridCache` only memoizes the deterministic fetch result and never
changes which value a key yields within one call, so it is omitted.
Grid keys `"latB_lngB"` are modelled as pairs `(latB, lngB) : ℤ × ℤ`. -/
/-- An entry `[idxA, idxB, midLat, midLng, distAtoB]` of a grid file. -/
structure CityPair where
  idxA : ℕ
  idxB : ℕ
  midLat : ℝ
  midLng : ℝ
  distAtoB : ℝ

/-- The `GRID_SIZE` from `cities.js` (degrees per grid cell). -/
def GRID_SIZE : ℝ := 5

/-- The `CoordUtils.distance(point1, point2)` from `lib/coord-utils.js`:
haversine with `R = 6371` and `c = 2 * atan2(sqrt(a), sqrt(1 - a))`. -/
def coordDistance (lat1 lng1 lat2 lng2 : ℝ) : ℝ :=
  let dLat := toRad (lat2 - lat1)
  let dLng := toRad (lng2 - lng1)
  let a := Real.sin (dLat / 2) * Real.sin (dLat / 2) +
    Real.cos (toRad lat1) * Real.cos (toRad lat2) *
      Real.sin (dLng / 2) * Real.sin (dLng / 2)
  let c := 2 * atan2 (Real.sqrt a) (Real.sqrt (1 - a))
  6371 * c

/-- The `loadGridFile(gridKey)` (cities.js, lines 71–87): returns the fetched
data on success, and `[]` — not an error — when the fetch fails. -/
def loadGridFile (env : ℤ × ℤ → Except String (List CityPair))
    (gridKey : ℤ × ℤ) : List CityPair :=
  match env gridKey with
  | Except.ok data => data
  | Except.error _ => []

/-- Integer range `[lo, hi]` traversed by a JS `for (let b = lo; b <= hi;
b++)` loop. -/
def bucketRange (lo hi : ℤ) : List ℤ :=
  (List.range (hi - lo + 1).toNat).map fun i => lo + (i : ℤ)

/-- The `Math.ceil(360 / GRID_SIZE)`, the `maxLngBuckets` of
`getNearbyGridKeys`. -/
def maxLngBuckets : ℤ := ⌈(360 : ℝ) / GRID_SIZE⌉

/-- Longitude-bucket normalization inside `getNearbyGridKeys` (cities.js,
lines 119–122): one conditional wrap on each side. -/
def normalizeLngB (b : ℤ) : ℤ :=
  let b1 := if b < 0 then b + maxLngBuckets else b
  if maxLngBuckets ≤ b1 then b1 - maxLngBuckets else b1

/-- The `getNearbyGridKeys(lat, lng, radiusKm)` (cities.js, lines 101–132):
bucket bounds from the lat/lng deltas, double loop pushing each
normalized key present in the grid index. -/
def getNearbyGridKeys (gIdx : ℤ × ℤ → Bool) (lat lng radiusKm : ℝ) :
    List (ℤ × ℤ) :=
  let latDelta := radiusKm / 111
  let lngDelta := radiusKm / (111 * Real.cos (lat * π / 180))
  let minLatBucket := ⌊(lat - latDelta + 90) / GRID_SIZE⌋
  let maxLatBucket := ⌊(lat + latDelta + 90) / GRID_SIZE⌋
  let minLngBucket := ⌊(lng - lngDelta + 180) / GRID_SIZE⌋
  let maxLngBucket := ⌊(lng + lngDelta + 180) / GRID_SIZE⌋
  (bucketRange minLatBucket maxLatBucket).flatMap fun latB =>
    ((bucketRange minLngBucket maxLngBucket).map fun lngB =>
      (latB, normalizeLngB lngB)).filter fun key => gIdx key

/-- The `searchRadii` of `findBestCombinations` (cities.js, line 170). -/
def searchRadii : List ℝ := [500, 1000, 2000, 5000, 10000, 20000]

/-- The radius loop of `findBestCombinations` (cities.js, lines 173–193):
rounds with no nearby keys are skipped (`continue`), a round with keys
replaces `allCandidates` with the pairs of its grid files, and the loop
breaks once `allCandidates.length >= maxResults`. -/
def gatherLoop (env : ℤ × ℤ → Except String (List CityPair))
    (gIdx : ℤ × ℤ → Bool) (lat lng : ℝ) (maxResults : ℕ) :
    List ℝ → List CityPair → List CityPair
  | [], acc => acc
  | r :: rs, acc =>
    let keys := getNearbyGridKeys gIdx lat lng r
    if keys.isEmpty then gatherLoop env gIdx lat lng maxResults rs acc
    else
      let cand := keys.flatMap fun k => loadGridFile env k
      if maxResults ≤ cand.length then cand
      else gatherLoop env gIdx lat lng maxResults rs cand

/-- Comparator of the final sort in cities.js (`(a, b) => a.score -
b.score`) on scored pairs. -/
def scoredLe (a b : CityPair × ℝ) : Bool := decide (a.2 ≤ b.2)

/-- The `findBestCombinations(target, maxResults)` from `cities.js` (lines
167–214; named with a `Cities` suffix to distinguish it from the worker
and finder search functions): gather candidates over the radii, score
each by `getDistance` (= `CoordUtils.distance`) from the target to the
midpoint, sort ascending, `slice(0, maxResults)`.  The value of the
returned (fulfilled or rejected) promise is an `Except`; the body never
throws, so the result is always `Except.ok`. -/
def findBestCombinationsCities (env : ℤ × ℤ → Except String (List CityPair))
    (gIdx : ℤ × ℤ → Bool) (tlat tlng : ℝ) (maxResults : ℕ) :
    Except String (List (CityPair × ℝ)) :=
  let allCandidates := gatherLoop env gIdx tlat tlng maxResults searchRadii []
  let results := allCandidates.map fun p =>
    (p, coordDistance tlat tlng p.midLat p.midLng)
  Except.ok ((results.mergeSort scoredLe).take maxResults)

/-! ## C9: the coverage-heatmap flood fill

Source: `generateHeatmap` in `src/finder.js` (lines 664–760 and helpers
at 546–603).  Midpoints are bucketed into `green` tiles with distance 0;
a queue-based flood fill then expands them, where each dequeued tile
offers its eight neighbors a tentative distance `currentDist + stepDist`,
skipped when it reaches 400 km or does not strictly improve the
neighbor's recorded distance, and `green` tiles are never overwritten.
Tile keys `"latIdx,lngIdx"` are `ℤ × ℤ`; the two `Map`s are functions to
`Option`; `gridSize` mirrors `tileGrid.size` for the `MAX_TILES` safety
break (which in JS stops the whole loop — here it merely skips the body
of each remaining iteration, leaving the two maps identically). -/
/-- The `tileSize` (km) of `generateHeatmap`, line 667. -/
def tileSize : ℝ := 100

/-- The `latStep = tileSize / 111` degrees, line 668. -/
def latStep : ℝ := tileSize / 111

/-- The `lngStep = tileSize / 111` degrees, line 669. -/
def lngStep : ℝ := tileSize / 111

/-- The `MAX_TILES` safety limit, line 700. -/
def MAX_TILES : ℕ := 500000

/-- The `getTileKey(lat, lng, latStep, lngStep)` (finder.js, lines 546–550). -/
def getTileKey (lat lng latStepArg lngStepArg : ℝ) : ℤ × ℤ :=
  (⌊(lat + 90) / latStepArg⌋, ⌊(lng + 180) / lngStepArg⌋)

/-- Colors of heatmap tiles. -/
inductive TColor where
  | green
  | yellow
  | orange
  | red
deriving DecidableEq

/-- Color band of a filled tile (finder.js, lines 727–734): yellow below
100 km, orange below 250 km, red otherwise. -/
def distColor (d : ℝ) : TColor :=
  if d < 100 then TColor.yellow
  else if d < 250 then TColor.orange
  else TColor.red

/-- The `getNeighborKeysWithDistance(key, latStep, lngStep)` (finder.js,
lines 581–603): the eight neighbors with center-to-center step distances
computed from the physical tile dimensions at this latitude. -/
def getNeighborKeysWithDistance (key : ℤ × ℤ) (latStepArg lngStepArg : ℝ) :
    List ((ℤ × ℤ) × ℝ) :=
  let latIndex := key.1
  let lngIndex := key.2
  let lat := -90 + ((latIndex : ℝ) + 0.5) * latStepArg
  let heightKm := latStepArg * 111
  let latRad := lat * π / 180
  let widthKm := lngStepArg * 111 * Real.cos latRad
  let verticalDist := heightKm
  let horizontalDist := widthKm
  let diagonalDist :=
    Real.sqrt (verticalDist * verticalDist + horizontalDist * horizontalDist)
  [((latIndex - 1, lngIndex), verticalDist),
   ((latIndex + 1, lngIndex), verticalDist),
   ((latIndex, lngIndex - 1), horizontalDist),
   ((latIndex, lngIndex + 1), horizontalDist),
   ((latIndex - 1, lngIndex - 1), diagonalDist),
   ((latIndex - 1, lngIndex + 1), diagonalDist),
   ((latIndex + 1, lngIndex - 1), diagonalDist),
   ((latIndex + 1, lngIndex + 1), diagonalDist)]

/-- State of the flood fill: the color map, the distance map, the size of
the color map, the queue with read cursor, and the queued-key set. -/
structure HState where
  tileGrid : ℤ × ℤ → Option TColor
  tileDistances : ℤ × ℤ → Option ℝ
  gridSize : ℕ
  queue : List ((ℤ × ℤ) × ℝ)
  inQueue : ℤ × ℤ → Bool
  queueIndex : ℕ

/-- The `tileDistances.has(k) && tileDistances.get(k) <= newDist` test of
finder.js, line 716. -/
def hasShorter (dists : ℤ × ℤ → Option ℝ) (k : ℤ × ℤ) (nd : ℝ) : Bool :=
  match dists k with
  | some d => decide (d ≤ nd)
  | none => false

/-- Body of the `neighbors.forEach` of `generateHeatmap` (finder.js,
lines 707–746): skip when `newDist >= 400`, skip when the recorded
distance is already `<= newDist`, never overwrite a `green` tile;
otherwise record the color band and `newDist`, bump the map size when the
tile is new, and enqueue it when not yet queued. -/
def processNeighbor (s : HState) (currentDist : ℝ) (nb : (ℤ × ℤ) × ℝ) :
    HState :=
  let newDist := currentDist + nb.2
  if 400 ≤ newDist then s
  else if hasShorter s.tileDistances nb.1 newDist then s
  else if s.tileGrid nb.1 = some TColor.green then s
  else
    { tileGrid := fun k => if k = nb.1 then some (distColor newDist)
        else s.tileGrid k
      tileDistances := fun k => if k = nb.1 then some newDist
        else s.tileDistances k
      gridSize := if s.tileGrid nb.1 = none then s.gridSize + 1 else s.gridSize
      queue := if s.inQueue nb.1 then s.queue else s.queue ++ [(nb.1, newDist)]
      inQueue := fun k => if k = nb.1 then true else s.inQueue k
      queueIndex := s.queueIndex }

/-- One iteration of the `while (queueIndex < queue.length)` loop
(finder.js, lines 702–747): dequeue, advance the cursor, stop expanding
past the `MAX_TILES` safety limit, otherwise process the eight
neighbors. -/
def floodStep (s : HState) : HState :=
  match s.queue[s.queueIndex]? with
  | none => s
  | some cur =>
    let s1 : HState := { s with queueIndex := s.queueIndex + 1 }
    if MAX_TILES < s1.gridSize then s1
    else
      (getNeighborKeysWithDistance cur.1 latStep lngStep).foldl
        (fun t nb => processNeighbor t cur.2 nb) s1

/-- The flood-fill loop, fuel-indexed: run `floodStep` while the cursor
has not reached the end of the (growing) queue. -/
def floodLoop : ℕ → HState → HState
  | 0, s => s
  | Nat.succ fuel, s =>
    if s.queueIndex < s.queue.length then floodLoop fuel (floodStep s) else s

/-- The seed tile keys: every midpoint bucketed by `getTileKey`
(finder.js, lines 676–680). -/
def seedKeys (mids : List (ℝ × ℝ)) : List (ℤ × ℤ) :=
  mids.map fun m => getTileKey m.1 m.2 latStep lngStep

/-- The state entering the flood fill (finder.js, lines 676–697): seeds
are `green` with distance 0, the queue holds every seed key at distance
0, and all of them are marked in-queue. -/
def initialHState (mids : List (ℝ × ℝ)) : HState :=
  { tileGrid := fun k => if k ∈ seedKeys mids then some TColor.green else none
    tileDistances := fun k => if k ∈ seedKeys mids then some 0 else none
    gridSize := (seedKeys mids).dedup.length
    queue := (seedKeys mids).map fun k => (k, 0)
    inQueue := fun k => decide (k ∈ seedKeys mids)
    queueIndex := 0 }

/-- The two-map invariant of the claim: seeds are `green` with recorded
distance 0, and every non-seed recorded distance is strictly below the
400 km cutoff. -/
def MapsInv (seeds : List (ℤ × ℤ)) (s : HState) : Prop :=
  (∀ k ∈ seeds, s.tileGrid k = some TColor.green ∧
    s.tileDistances k = some 0) ∧
  ∀ k d, s.tileDistances k = some d → k ∉ seeds → d < 400

theorem atan2_eq_arg (y x : ℝ) : atan2 y x = Complex.arg (x + y * Complex.I) := rfl

/-- The `atan2` of a point given by polar angle `θ ∈ (-π, π]` and positive radius. -/
theorem atan2_polar {θ r : ℝ} (hr : 0 < r) (h1 : -π < θ) (h2 : θ ≤ π) :
    atan2 (r * sin θ) (r * cos θ) = θ := by
  have : ((r * cos θ : ℝ) + (r * sin θ : ℝ) * Complex.I)
      = (r : ℂ) * (Real.cos θ + Real.sin θ * Complex.I) := by
    push_cast
    ring
  rw [atan2, this, Complex.arg_real_mul _ hr, Complex.ofReal_cos,
    Complex.ofReal_sin, Complex.arg_cos_add_sin_mul_I ⟨h1, h2⟩]

theorem atan2_zero_zero : atan2 0 0 = 0 := by
  simp [atan2]

theorem toRad_toDeg (x : ℝ) : toRad (toDeg x) = x := by
  have hπ : (π : ℝ) ≠ 0 := pi_ne_zero
  field_simp [toRad, toDeg]

theorem toDeg_toRad (x : ℝ) : toDeg (toRad x) = x := by
  have hπ : (π : ℝ) ≠ 0 := pi_ne_zero
  field_simp [toRad, toDeg]

theorem toRad_sub (a b : ℝ) : toRad (a - b) = toRad a - toRad b := by
  unfold toRad
  ring

theorem sin_half_sq (x : ℝ) : sin (x / 2) ^ 2 = (1 - cos x) / 2 := by
  have h := Real.cos_two_mul (x / 2)
  have h2 : 2 * (x / 2) = x := by ring
  rw [h2] at h
  have h3 := Real.sin_sq_add_cos_sq (x / 2)
  nlinarith

theorem dot3_sphVec (p1 p2 : Point) :
    dot3 (sphVec p1) (sphVec p2) =
      sin (toRad p1.lat) * sin (toRad p2.lat) +
      cos (toRad p1.lat) * cos (toRad p2.lat) *
        cos (toRad p2.lng - toRad p1.lng) := by
  simp only [dot3, sphVec, Real.cos_sub]
  ring

theorem dot3_sphVec_self (p : Point) : dot3 (sphVec p) (sphVec p) = 1 := by
  rw [dot3_sphVec]
  have h1 := Real.sin_sq_add_cos_sq (toRad p.lat)
  simp only [sub_self, Real.cos_zero]
  nlinarith

theorem neg_one_le_dot3_sphVec (p1 p2 : Point)
    (h1 : 0 ≤ cos (toRad p1.lat)) (h2 : 0 ≤ cos (toRad p2.lat)) :
    -1 ≤ dot3 (sphVec p1) (sphVec p2) := by
  rw [dot3_sphVec]
  have ha := Real.cos_le_one (toRad p1.lat + toRad p2.lat)
  have hb := Real.neg_one_le_cos (toRad p2.lng - toRad p1.lng)
  have hc := Real.cos_add (toRad p1.lat) (toRad p2.lat)
  nlinarith [mul_nonneg (mul_nonneg h1 h2)
    (show (0:ℝ) ≤ cos (toRad p2.lng - toRad p1.lng) + 1 by linarith)]

theorem dot3_sphVec_le_one (p1 p2 : Point)
    (h1 : 0 ≤ cos (toRad p1.lat)) (h2 : 0 ≤ cos (toRad p2.lat)) :
    dot3 (sphVec p1) (sphVec p2) ≤ 1 := by
  rw [dot3_sphVec]
  have ha := Real.cos_le_one (toRad p1.lat - toRad p2.lat)
  have hb := Real.cos_le_one (toRad p2.lng - toRad p1.lng)
  have hc := Real.cos_sub (toRad p1.lat) (toRad p2.lat)
  nlinarith [mul_nonneg (mul_nonneg h1 h2)
    (show (0:ℝ) ≤ 1 - cos (toRad p2.lng - toRad p1.lng) by linarith)]

/-- The haversine quantity `a` equals `(1 - u·v) / 2`. -/
theorem havA_eq_dot3 (p1 p2 : Point) :
    sin (toRad (p2.lat - p1.lat) / 2) ^ 2 +
      sin (toRad (p2.lng - p1.lng) / 2) ^ 2 *
        cos (toRad p1.lat) * cos (toRad p2.lat) =
    (1 - dot3 (sphVec p1) (sphVec p2)) / 2 := by
  rw [dot3_sphVec, toRad_sub, toRad_sub, sin_half_sq, sin_half_sq,
    Real.cos_sub]
  ring

theorem sin_atan2 (y x : ℝ) : sin (atan2 y x) = y / Real.sqrt (x ^ 2 + y ^ 2) := by
  have h := Complex.sin_arg (x + y * Complex.I)
  rw [atan2]
  rw [h, Complex.abs_apply, Complex.normSq_add_mul_I]
  simp

theorem cos_atan2 (y x : ℝ) (h : ¬(x = 0 ∧ y = 0)) :
    cos (atan2 y x) = x / Real.sqrt (x ^ 2 + y ^ 2) := by
  have hz : (x : ℂ) + y * Complex.I ≠ 0 := by
    intro hc
    apply h
    constructor
    · have := congrArg Complex.re hc
      simpa using this
    · have := congrArg Complex.im hc
      simpa using this
  have hcos := Complex.cos_arg hz
  rw [atan2, hcos, Complex.abs_apply, Complex.normSq_add_mul_I]
  simp

theorem atan2_half_sqrt {d : ℝ} (h1 : -1 ≤ d) (h2 : d ≤ 1) :
    atan2 (Real.sqrt ((1 - d) / 2)) (Real.sqrt ((1 + d) / 2)) = arccos d / 2 := by
  have h0 := Real.arccos_nonneg d
  have hπ' := Real.arccos_le_pi d
  have hπ := Real.pi_pos
  have hcos := Real.cos_arccos h1 h2
  have hs : Real.sqrt ((1 - d) / 2) = sin (arccos d / 2) := by
    rw [Real.sin_half_eq_sqrt h0 (by linarith), hcos]
  have hc : Real.sqrt ((1 + d) / 2) = cos (arccos d / 2) := by
    rw [Real.cos_half (by linarith) hπ', hcos]
  rw [hs, hc, ← one_mul (sin (arccos d / 2)), ← one_mul (cos (arccos d / 2))]
  exact atan2_polar one_pos (by linarith) (by linarith)

theorem arcsin_half_sqrt {d : ℝ} (h1 : -1 ≤ d) (h2 : d ≤ 1) :
    arcsin (Real.sqrt ((1 - d) / 2)) = arccos d / 2 := by
  have h0 := Real.arccos_nonneg d
  have hπ' := Real.arccos_le_pi d
  have hπ := Real.pi_pos
  have hcos := Real.cos_arccos h1 h2
  have hs : Real.sqrt ((1 - d) / 2) = sin (arccos d / 2) := by
    rw [Real.sin_half_eq_sqrt h0 (by linarith), hcos]
  rw [hs]
  exact Real.arcsin_sin (by linarith) (by linarith)

/-- The `turf.distance` in closed form: `R · arccos (u·v)` (for in-range
latitudes, i.e. latitudes whose cosine is nonnegative). -/
theorem turfDistance_eq_arccos (p1 p2 : Point)
    (h1 : 0 ≤ cos (toRad p1.lat)) (h2 : 0 ≤ cos (toRad p2.lat)) :
    turfDistance p1 p2 =
      turfEarthRadiusKm * arccos (dot3 (sphVec p1) (sphVec p2)) := by
  have hd1 := neg_one_le_dot3_sphVec p1 p2 h1 h2
  have hd2 := dot3_sphVec_le_one p1 p2 h1 h2
  have key := havA_eq_dot3 p1 p2
  simp only [turfDistance]
  rw [key]
  have h3 : 1 - (1 - dot3 (sphVec p1) (sphVec p2)) / 2 =
      (1 + dot3 (sphVec p1) (sphVec p2)) / 2 := by ring
  rw [h3, atan2_half_sqrt hd1 hd2]
  ring

/-- The worker's `haversineDistance` in closed form: `6371 · arccos (u·v)`. -/
theorem haversineDistance_eq_arccos (la lo lb lob : ℝ)
    (h1 : 0 ≤ cos (toRad la)) (h2 : 0 ≤ cos (toRad lb)) :
    haversineDistance la lo lb lob =
      EARTH_RADIUS_KM *
        arccos (dot3 (sphVec ⟨la, lo⟩) (sphVec ⟨lb, lob⟩)) := by
  have hd1 := neg_one_le_dot3_sphVec ⟨la, lo⟩ ⟨lb, lob⟩ h1 h2
  have hd2 := dot3_sphVec_le_one ⟨la, lo⟩ ⟨lb, lob⟩ h1 h2
  have key := havA_eq_dot3 ⟨la, lo⟩ ⟨lb, lob⟩
  simp only [haversineDistance]
  have key2 : sin (toRad (lb - la) / 2) ^ 2 +
      cos (toRad la) * cos (toRad lb) * sin (toRad (lob - lo) / 2) ^ 2 =
      (1 - dot3 (sphVec ⟨la, lo⟩) (sphVec ⟨lb, lob⟩)) / 2 := by
    rw [← key]
    ring
  rw [key2, arcsin_half_sqrt hd1 hd2]
  ring

theorem atan2_mul_pos {r : ℝ} (hr : 0 < r) (y x : ℝ) :
    atan2 (r * y) (r * x) = atan2 y x := by
  have : ((r * x : ℝ) + (r * y : ℝ) * Complex.I)
      = (r : ℂ) * ((x : ℝ) + (y : ℝ) * Complex.I) := by
    push_cast
    ring
  rw [atan2, this, Complex.arg_real_mul _ hr, atan2]

theorem wzAux_sq_le_one (φ δ b : ℝ) :
    (sin φ * cos δ + cos φ * sin δ * cos b) ^ 2 ≤ 1 := by
  have hφ := Real.sin_sq_add_cos_sq φ
  have hδ := Real.sin_sq_add_cos_sq δ
  have hb := Real.sin_sq_add_cos_sq b
  have key : (sin φ * cos δ + cos φ * sin δ * cos b) ^ 2 +
      (sin φ * sin δ * cos b - cos φ * cos δ) ^ 2 +
      (sin δ * sin b) ^ 2 = 1 := by
    linear_combination (cos δ ^ 2 + sin δ ^ 2 * cos b ^ 2) * hφ +
      sin δ ^ 2 * hb + hδ
  linarith [sq_nonneg (sin φ * sin δ * cos b - cos φ * cos δ),
    sq_nonneg (sin δ * sin b)]

theorem wzAux_le_one (φ δ b : ℝ) :
    -1 ≤ sin φ * cos δ + cos φ * sin δ * cos b ∧
      sin φ * cos δ + cos φ * sin δ * cos b ≤ 1 := by
  have h := wzAux_sq_le_one φ δ b
  constructor
  · nlinarith [sq_nonneg (sin φ * cos δ + cos φ * sin δ * cos b + 1)]
  · nlinarith [sq_nonneg (sin φ * cos δ + cos φ * sin δ * cos b - 1)]

theorem csAux_sum (φ δ b : ℝ) :
    (cos δ * cos φ - sin δ * cos b * sin φ) ^ 2 + (sin δ * sin b) ^ 2 =
      1 - (sin φ * cos δ + cos φ * sin δ * cos b) ^ 2 := by
  have hφ := Real.sin_sq_add_cos_sq φ
  have hδ := Real.sin_sq_add_cos_sq δ
  have hb := Real.sin_sq_add_cos_sq b
  linear_combination (cos δ ^ 2 + sin δ ^ 2 * cos b ^ 2) * hφ +
    sin δ ^ 2 * hb + hδ

theorem bAux_eq (φ δ b : ℝ) :
    cos δ - sin φ * (sin φ * cos δ + cos φ * sin δ * cos b) =
      cos φ * (cos δ * cos φ - sin δ * cos b * sin φ) := by
  have hφ := Real.sin_sq_add_cos_sq φ
  linear_combination (-(cos δ)) * hφ

/-- The `cos γ` and `sin γ`, scaled by the horizontal norm, for the longitude
increment `γ` of the destination formula. -/
theorem destGamma (S C : ℝ) (hsum : C ^ 2 + S ^ 2 = 1 - wz ^ 2) :
    cos (arcsin wz) * cos (atan2 S C) = C ∧
      cos (arcsin wz) * sin (atan2 S C) = S := by
  have hcosarc : cos (arcsin wz) = Real.sqrt (C ^ 2 + S ^ 2) := by
    rw [Real.cos_arcsin]
    congr 1
    linarith
  by_cases hCS : C = 0 ∧ S = 0
  · obtain ⟨hC0, hS0⟩ := hCS
    have h0 : cos (arcsin wz) = 0 := by
      rw [hcosarc, hC0, hS0]
      simp
    rw [h0, hC0, hS0]
    constructor <;> ring
  · have hrad : 0 < Real.sqrt (C ^ 2 + S ^ 2) := by
      rcases Classical.em (C = 0) with hC | hC
      · have hS : S ≠ 0 := fun hS => hCS ⟨hC, hS⟩
        apply Real.sqrt_pos.mpr
        positivity
      · apply Real.sqrt_pos.mpr
        positivity
    have hcosγ : cos (atan2 S C) = C / Real.sqrt (C ^ 2 + S ^ 2) :=
      cos_atan2 S C (by tauto)
    have hsinγ : sin (atan2 S C) = S / Real.sqrt (C ^ 2 + S ^ 2) := sin_atan2 S C
    rw [hcosarc, hcosγ, hsinγ]
    constructor <;> field_simp

/-- The unit vector of `turf.destination p dist bearing`: move from `sphVec p`
by the central angle `dist / R` in the tangent direction given by the
bearing in the local north/east frame.  Requires `p` strictly inside the
polar caps (`cos (toRad p.lat) > 0`). -/
theorem sphVec_turfDestination (p : Point) (dist bearing : ℝ)
    (hp : 0 < cos (toRad p.lat)) :
    sphVec (turfDestination p dist bearing) =
      add3 (smul3 (cos (dist / turfEarthRadiusKm)) (sphVec p))
        (smul3 (sin (dist / turfEarthRadiusKm))
          (add3 (smul3 (cos (toRad bearing)) (northVec p))
            (smul3 (sin (toRad bearing)) (eastVec p)))) := by
  simp only [turfDestination, sphVec, northVec, eastVec, add3, smul3,
    toRad_toDeg]
  revert hp
  generalize toRad p.lat = φ
  generalize toRad p.lng = lam
  generalize toRad bearing = b
  generalize dist / turfEarthRadiusKm = δ
  intro hp
  obtain ⟨hwz1, hwz2⟩ := wzAux_le_one φ δ b
  have hsinarc : sin (arcsin (sin φ * cos δ + cos φ * sin δ * cos b)) =
      sin φ * cos δ + cos φ * sin δ * cos b := Real.sin_arcsin hwz1 hwz2
  rw [hsinarc, bAux_eq φ δ b,
    show sin b * sin δ * cos φ = cos φ * (sin δ * sin b) from by ring,
    atan2_mul_pos hp]
  obtain ⟨hcγ, hsγ⟩ := destGamma (sin δ * sin b)
    (cos δ * cos φ - sin δ * cos b * sin φ) (csAux_sum φ δ b)
  simp only [Prod.mk.injEq]
  refine ⟨?_, ?_, ?_⟩
  · rw [Real.cos_add]
    linear_combination (cos lam) * hcγ - (sin lam) * hsγ
  · rw [Real.sin_add]
    linear_combination (sin lam) * hcγ + (cos lam) * hsγ
  · ring

theorem dot3_comm (u v : ℝ × ℝ × ℝ) : dot3 u v = dot3 v u := by
  simp only [dot3]
  ring

theorem dot3_add3_left (u v w : ℝ × ℝ × ℝ) :
    dot3 (add3 u v) w = dot3 u w + dot3 v w := by
  simp only [dot3, add3]
  ring

theorem dot3_smul3_left (r : ℝ) (u w : ℝ × ℝ × ℝ) :
    dot3 (smul3 r u) w = r * dot3 u w := by
  simp only [dot3, smul3]
  ring

theorem dot3_sphVec_northVec (p : Point) :
    dot3 (sphVec p) (northVec p) = 0 := by
  have hφ := Real.sin_sq_add_cos_sq (toRad p.lat)
  have hlng := Real.sin_sq_add_cos_sq (toRad p.lng)
  simp only [dot3, sphVec, northVec]
  linear_combination (-(sin (toRad p.lat) * cos (toRad p.lat))) * hlng

theorem dot3_sphVec_eastVec (p : Point) :
    dot3 (sphVec p) (eastVec p) = 0 := by
  simp only [dot3, sphVec, eastVec]
  ring

theorem dot3_northVec_self (p : Point) :
    dot3 (northVec p) (northVec p) = 1 := by
  have hφ := Real.sin_sq_add_cos_sq (toRad p.lat)
  have hlng := Real.sin_sq_add_cos_sq (toRad p.lng)
  simp only [dot3, northVec]
  linear_combination (sin (toRad p.lat) ^ 2) * hlng + hφ

theorem dot3_northVec_eastVec (p : Point) :
    dot3 (northVec p) (eastVec p) = 0 := by
  simp only [dot3, northVec, eastVec]
  ring

theorem dot3_eastVec_self (p : Point) :
    dot3 (eastVec p) (eastVec p) = 1 := by
  have hlng := Real.sin_sq_add_cos_sq (toRad p.lng)
  simp only [dot3, eastVec]
  linear_combination hlng

/-- The `sphVec p`, `northVec p`, `eastVec p` is an orthonormal frame: the
squared components of any vector in it sum to its squared norm. -/
theorem frame_norm (p : Point) (w : ℝ × ℝ × ℝ) :
    dot3 w (sphVec p) ^ 2 + dot3 w (northVec p) ^ 2 +
      dot3 w (eastVec p) ^ 2 = dot3 w w := by
  have hφ := Real.sin_sq_add_cos_sq (toRad p.lat)
  have hlng := Real.sin_sq_add_cos_sq (toRad p.lng)
  simp only [dot3, sphVec, northVec, eastVec]
  linear_combination (w.1 ^ 2 * cos (toRad p.lng) ^ 2 +
      w.2.1 ^ 2 * sin (toRad p.lng) ^ 2 + w.2.2 ^ 2 +
      2 * w.1 * w.2.1 * cos (toRad p.lng) * sin (toRad p.lng)) * hφ +
    (w.1 ^ 2 + w.2.1 ^ 2) * hlng

theorem sqrt_cos_atan2 (y x : ℝ) :
    Real.sqrt (x ^ 2 + y ^ 2) * cos (atan2 y x) = x := by
  by_cases h : x = 0 ∧ y = 0
  · obtain ⟨hx, hy⟩ := h
    rw [hx, hy]
    simp
  · have hpos : 0 < Real.sqrt (x ^ 2 + y ^ 2) := by
      rcases Classical.em (x = 0) with hx | hx
      · have hy : y ≠ 0 := fun hy => h ⟨hx, hy⟩
        apply Real.sqrt_pos.mpr
        positivity
      · apply Real.sqrt_pos.mpr
        positivity
    rw [cos_atan2 y x h]
    field_simp

theorem sqrt_sin_atan2 (y x : ℝ) :
    Real.sqrt (x ^ 2 + y ^ 2) * sin (atan2 y x) = y := by
  by_cases h : Real.sqrt (x ^ 2 + y ^ 2) = 0
  · have h2 : x ^ 2 + y ^ 2 ≤ 0 := Real.sqrt_eq_zero'.mp h
    have hy : y = 0 := by nlinarith [sq_nonneg x, sq_nonneg y]
    rw [h, hy]
    ring
  · have hpos : 0 < Real.sqrt (x ^ 2 + y ^ 2) :=
      lt_of_le_of_ne (Real.sqrt_nonneg _) (Ne.symm h)
    rw [sin_atan2 y x]
    field_simp

/-- The bearing formula reads off the components of `sphVec p2` in the
local north/east frame at `p1`. -/
theorem toRad_turfBearing (p1 p2 : Point) :
    toRad (turfBearing p1 p2) =
      atan2 (dot3 (sphVec p2) (eastVec p1)) (dot3 (sphVec p2) (northVec p1)) := by
  simp only [turfBearing, toRad_toDeg]
  congr 1
  · simp only [dot3, sphVec, eastVec]
    rw [Real.sin_sub]
    ring
  · simp only [dot3, sphVec, northVec]
    rw [Real.cos_sub]
    ring

theorem turfDestination_lat (p : Point) (dist bearing : ℝ) :
    (turfDestination p dist bearing).lat =
      toDeg (arcsin (sin (toRad p.lat) * cos (dist / turfEarthRadiusKm) +
        cos (toRad p.lat) * sin (dist / turfEarthRadiusKm) *
          cos (toRad bearing))) := rfl

theorem cos_lat_turfDestination_nonneg (p : Point) (dist bearing : ℝ) :
    0 ≤ cos (toRad (turfDestination p dist bearing).lat) := by
  rw [turfDestination_lat, toRad_toDeg]
  exact Real.cos_arcsin_nonneg _

/-- Dot products with a destination point, expanded in the frame at `p`. -/
theorem dot3_dest (p : Point) (dist bearing : ℝ)
    (hp : 0 < cos (toRad p.lat)) (w : ℝ × ℝ × ℝ) :
    dot3 (sphVec (turfDestination p dist bearing)) w =
      cos (dist / turfEarthRadiusKm) * dot3 (sphVec p) w +
        sin (dist / turfEarthRadiusKm) *
          (cos (toRad bearing) * dot3 (northVec p) w +
            sin (toRad bearing) * dot3 (eastVec p) w) := by
  rw [sphVec_turfDestination p dist bearing hp, dot3_add3_left,
    dot3_smul3_left, dot3_smul3_left, dot3_add3_left, dot3_smul3_left,
    dot3_smul3_left]

/-- The geometric heart of the reflection round trip: travelling twice the
source→target distance along the source→target bearing and then taking the
Turf midpoint of source and the arrival point lands exactly on the target,
provided the central angle is under a quarter turn. -/
theorem reflect_roundtrip (source target : Point)
    (hcos1 : 0 < cos (toRad source.lat)) (hcos2 : 0 ≤ cos (toRad target.lat))
    (hθhalf : arccos (dot3 (sphVec source) (sphVec target)) < π / 2) :
    turfDistance (turfMidpoint source
      (turfDestination source (turfDistance source target * 2)
        (turfBearing source target))) target = 0 := by
  have hRpos : (0 : ℝ) < turfEarthRadiusKm := by norm_num [turfEarthRadiusKm]
  have hRne : turfEarthRadiusKm ≠ 0 := ne_of_gt hRpos
  have hd1 := neg_one_le_dot3_sphVec source target hcos1.le hcos2
  have hd2 := dot3_sphVec_le_one source target hcos1.le hcos2
  have hθ0 : 0 ≤ arccos (dot3 (sphVec source) (sphVec target)) :=
    Real.arccos_nonneg _
  have hθπ : arccos (dot3 (sphVec source) (sphVec target)) ≤ π :=
    Real.arccos_le_pi _
  have huv : dot3 (sphVec source) (sphVec target) =
      cos (arccos (dot3 (sphVec source) (sphVec target))) :=
    (Real.cos_arccos hd1 hd2).symm
  have hdist : turfDistance source target =
      turfEarthRadiusKm * arccos (dot3 (sphVec source) (sphVec target)) :=
    turfDistance_eq_arccos source target hcos1.le hcos2
  generalize hθv : arccos (dot3 (sphVec source) (sphVec target)) = θ at *
  have hsθ : 0 ≤ sin θ := Real.sin_nonneg_of_nonneg_of_le_pi hθ0 hθπ
  have hcθ : 0 < cos θ :=
    Real.cos_pos_of_mem_Ioo ⟨by linarith [Real.pi_pos], hθhalf⟩
  -- components of the target vector in the frame at the source
  have hframe := frame_norm source (sphVec target)
  rw [dot3_sphVec_self] at hframe
  have hcomm : dot3 (sphVec target) (sphVec source) = cos θ := by
    rw [dot3_comm]
    exact huv
  rw [hcomm] at hframe
  have hsq : dot3 (sphVec target) (northVec source) ^ 2 +
      dot3 (sphVec target) (eastVec source) ^ 2 = sin θ ^ 2 := by
    have := Real.sin_sq_add_cos_sq θ
    linarith
  have hh : Real.sqrt (dot3 (sphVec target) (northVec source) ^ 2 +
      dot3 (sphVec target) (eastVec source) ^ 2) = sin θ := by
    rw [hsq]
    exact Real.sqrt_sq hsθ
  have hbearing := toRad_turfBearing source target
  have hvn : sin θ * cos (toRad (turfBearing source target)) =
      dot3 (sphVec target) (northVec source) := by
    rw [hbearing, ← hh]
    exact sqrt_cos_atan2 _ _
  have hve : sin θ * sin (toRad (turfBearing source target)) =
      dot3 (sphVec target) (eastVec source) := by
    rw [hbearing, ← hh]
    exact sqrt_sin_atan2 _ _
  -- the reflection point
  have h2θ : turfDistance source target * 2 / turfEarthRadiusKm = 2 * θ := by
    rw [hdist]
    field_simp
    ring
  have hwu : dot3 (sphVec (turfDestination source
      (turfDistance source target * 2) (turfBearing source target)))
      (sphVec source) = cos (2 * θ) := by
    rw [dot3_dest source _ _ hcos1, h2θ, dot3_sphVec_self,
      dot3_comm (northVec source) (sphVec source), dot3_sphVec_northVec,
      dot3_comm (eastVec source) (sphVec source), dot3_sphVec_eastVec]
    ring
  have hcosR1 := cos_lat_turfDestination_nonneg source
    (turfDistance source target * 2) (turfBearing source target)
  have hdist2 : turfDistance source (turfDestination source
      (turfDistance source target * 2) (turfBearing source target)) =
      turfEarthRadiusKm * (2 * θ) := by
    rw [turfDistance_eq_arccos source _ hcos1.le hcosR1, dot3_comm, hwu,
      Real.arccos_cos (by linarith) (by linarith)]
  -- frame components of the reflection point
  have hwn : dot3 (sphVec (turfDestination source
      (turfDistance source target * 2) (turfBearing source target)))
      (northVec source) =
      sin (2 * θ) * cos (toRad (turfBearing source target)) := by
    rw [dot3_dest source _ _ hcos1, h2θ, dot3_sphVec_northVec,
      dot3_northVec_self,
      dot3_comm (eastVec source) (northVec source), dot3_northVec_eastVec]
    ring
  have hwe : dot3 (sphVec (turfDestination source
      (turfDistance source target * 2) (turfBearing source target)))
      (eastVec source) =
      sin (2 * θ) * sin (toRad (turfBearing source target)) := by
    rw [dot3_dest source _ _ hcos1, h2θ, dot3_sphVec_eastVec,
      dot3_northVec_eastVec, dot3_eastVec_self]
    ring
  have hb2 : toRad (turfBearing source (turfDestination source
      (turfDistance source target * 2) (turfBearing source target))) =
      atan2 (sin (2 * θ) * sin (toRad (turfBearing source target)))
        (sin (2 * θ) * cos (toRad (turfBearing source target))) := by
    rw [toRad_turfBearing, hwe, hwn]
  have hhalf : turfDistance source (turfDestination source
      (turfDistance source target * 2) (turfBearing source target)) / 2 /
      turfEarthRadiusKm = θ := by
    rw [hdist2]
    field_simp
    ring
  -- the midpoint hits the target exactly
  have hmid : dot3 (sphVec (turfMidpoint source (turfDestination source
      (turfDistance source target * 2) (turfBearing source target))))
      (sphVec target) = 1 := by
    simp only [turfMidpoint]
    rw [dot3_dest source _ _ hcos1, hhalf, huv,
      dot3_comm (northVec source) (sphVec target), ← hvn,
      dot3_comm (eastVec source) (sphVec target), ← hve]
    rcases eq_or_lt_of_le hθ0 with hzero | hpos
    · rw [← hzero]
      simp
    · have hs2θ : 0 < sin (2 * θ) := by
        rw [Real.sin_two_mul]
        have hsp : 0 < sin θ :=
          Real.sin_pos_of_pos_of_lt_pi hpos (by linarith [Real.pi_pos])
        positivity
      have hone : cos (toRad (turfBearing source target)) ^ 2 +
          sin (toRad (turfBearing source target)) ^ 2 = 1 := by
        have := Real.sin_sq_add_cos_sq (toRad (turfBearing source target))
        linarith
      have hcb2 : cos (toRad (turfBearing source (turfDestination source
          (turfDistance source target * 2) (turfBearing source target)))) =
          cos (toRad (turfBearing source target)) := by
        rw [hb2, atan2_mul_pos hs2θ]
        have h1 := sqrt_cos_atan2 (sin (toRad (turfBearing source target)))
          (cos (toRad (turfBearing source target)))
        rw [hone, Real.sqrt_one, one_mul] at h1
        exact h1
      have hsb2 : sin (toRad (turfBearing source (turfDestination source
          (turfDistance source target * 2) (turfBearing source target)))) =
          sin (toRad (turfBearing source target)) := by
        rw [hb2, atan2_mul_pos hs2θ]
        have h1 := sqrt_sin_atan2 (sin (toRad (turfBearing source target)))
          (cos (toRad (turfBearing source target)))
        rw [hone, Real.sqrt_one, one_mul] at h1
        exact h1
      rw [hcb2, hsb2]
      have hpy := Real.sin_sq_add_cos_sq θ
      linear_combination (sin θ ^ 2) * hone + hpy
  have hcosMid : 0 ≤ cos (toRad (turfMidpoint source (turfDestination source
      (turfDistance source target * 2) (turfBearing source target))).lat) := by
    simp only [turfMidpoint]
    exact cos_lat_turfDestination_nonneg _ _ _
  rw [turfDistance_eq_arccos _ _ hcosMid hcos2, hmid, Real.arccos_one,
    mul_zero]

/-- C1 (amended).  For a source strictly inside the polar caps and a
target with in-range latitude, `calculateReflection` returns the
out-of-range signal (`none`) exactly when the source→target distance
exceeds `MAX_DISTANCE_KM`; and whenever the source→target distance is
below `ANTIPODAL_THRESHOLD_KM` (10000 km), it returns a point `R` with
`R.distance` the source→target distance such that the geodesic midpoint of
source and `R` is exactly the target (zero geodesic distance).  Between the
antipodal threshold and `MAX_DISTANCE_KM` a point is still returned, but
its midpoint with the source is the target's antipode, not the target
(see the counterexample). -/
theorem c1_calculateReflection_amended (source target : Point)
    (hs1 : -90 < source.lat) (hs2 : source.lat < 90)
    (ht1 : -90 ≤ target.lat) (ht2 : target.lat ≤ 90) :
    (calculateReflection source target = none ↔
      MAX_DISTANCE_KM < turfDistance source target) ∧
    (turfDistance source target < ANTIPODAL_THRESHOLD_KM →
      ∃ r, calculateReflection source target = some r ∧
        r.distance = turfDistance source target ∧
        turfDistance (turfMidpoint source ⟨r.lat, r.lng⟩) target = 0) := by
  have hπ := Real.pi_pos
  have hcos1 : 0 < cos (toRad source.lat) := by
    apply Real.cos_pos_of_mem_Ioo
    constructor
    · unfold toRad
      nlinarith
    · unfold toRad
      nlinarith
  have hcos2 : 0 ≤ cos (toRad target.lat) := by
    apply Real.cos_nonneg_of_mem_Icc
    constructor
    · unfold toRad
      nlinarith
    · unfold toRad
      nlinarith
  constructor
  · by_cases hgt : MAX_DISTANCE_KM < turfDistance source target
    · simp [calculateReflection, hgt]
    · simp [calculateReflection, hgt]
  · intro hlt
    have hdist := turfDistance_eq_arccos source target hcos1.le hcos2
    have hθhalf : arccos (dot3 (sphVec source) (sphVec target)) < π / 2 := by
      rw [hdist] at hlt
      norm_num [turfEarthRadiusKm, ANTIPODAL_THRESHOLD_KM] at hlt
      nlinarith [Real.pi_gt_d2]
    have hle : ¬ MAX_DISTANCE_KM < turfDistance source target := by
      norm_num [MAX_DISTANCE_KM]
      norm_num [ANTIPODAL_THRESHOLD_KM] at hlt
      linarith
    refine ⟨⟨(turfDestination source (turfDistance source target * 2)
        (turfBearing source target)).lat,
      (turfDestination source (turfDistance source target * 2)
        (turfBearing source target)).lng,
      turfDistance source target⟩, ?_, rfl, ?_⟩
    · simp [calculateReflection, hle]
    · exact reflect_roundtrip source target hcos1 hcos2 hθhalf

theorem turfDistance_0_60 :
    turfDistance ⟨0, 0⟩ ⟨0, 60⟩ = turfEarthRadiusKm * (π / 3) := by
  have h60 : toRad ((60 : ℝ) - 0) / 2 = π / 6 := by
    unfold toRad
    ring
  have h00 : toRad ((0 : ℝ) - 0) / 2 = 0 := by
    unfold toRad
    ring
  have h0 : toRad (0 : ℝ) = 0 := by
    unfold toRad
    ring
  show 2 * atan2 (Real.sqrt _) (Real.sqrt _) * turfEarthRadiusKm = _
  rw [h60, h00, h0, Real.sin_zero, Real.cos_zero, Real.sin_pi_div_six]
  have ha : (0 : ℝ) ^ 2 + (1 / 2) ^ 2 * 1 * 1 = 1 / 4 := by norm_num
  rw [ha]
  have h14 : Real.sqrt (1 / 4 : ℝ) = 1 / 2 := by
    rw [show (1 / 4 : ℝ) = (1 / 2) ^ 2 by norm_num]
    exact Real.sqrt_sq (by norm_num)
  have h34 : Real.sqrt (1 - 1 / 4 : ℝ) = Real.sqrt 3 / 2 := by
    rw [show (1 - 1 / 4 : ℝ) = (Real.sqrt 3 / 2) ^ 2 by
      rw [div_pow, Real.sq_sqrt (by norm_num : (0:ℝ) ≤ 3)]
      norm_num]
    exact Real.sqrt_sq (by positivity)
  rw [h14, h34]
  have hat : atan2 (1 / 2) (Real.sqrt 3 / 2) = π / 6 := by
    have h := atan2_polar (θ := π / 6) one_pos
      (by nlinarith [Real.pi_pos]) (by nlinarith [Real.pi_pos])
    rw [one_mul, one_mul, Real.sin_pi_div_six, Real.cos_pi_div_six] at h
    exact h
  rw [hat]
  ring

/-- Witness for C1's amended theorem at source `(0,0)`, target `(0,60)`:
the hypotheses hold and the produced reflection's midpoint is the target. -/
theorem c1_witness :
    turfDistance ⟨0, 0⟩ ⟨0, 60⟩ < ANTIPODAL_THRESHOLD_KM ∧
    ∃ r, calculateReflection ⟨0, 0⟩ ⟨0, 60⟩ = some r ∧
      r.distance = turfDistance ⟨0, 0⟩ ⟨0, 60⟩ ∧
      turfDistance (turfMidpoint ⟨0, 0⟩ ⟨r.lat, r.lng⟩) ⟨0, 60⟩ = 0 := by
  have hd : turfDistance ⟨0, 0⟩ ⟨0, 60⟩ < ANTIPODAL_THRESHOLD_KM := by
    rw [turfDistance_0_60]
    norm_num [turfEarthRadiusKm, ANTIPODAL_THRESHOLD_KM]
    nlinarith [Real.pi_lt_d2]
  exact ⟨hd, (c1_calculateReflection_amended ⟨0, 0⟩ ⟨0, 60⟩ (by norm_num)
    (by norm_num) (by norm_num) (by norm_num)).2 hd⟩

/-! ## Concrete evaluation on the equator (for the C1 counterexample) -/
theorem Point.ext' {p q : Point} (h1 : p.lat = q.lat) (h2 : p.lng = q.lng) :
    p = q := by
  cases p
  cases q
  simp_all

theorem turfDestination_lng (p : Point) (dist bearing : ℝ) :
    (turfDestination p dist bearing).lng =
      toDeg (toRad p.lng +
        atan2 (sin (toRad bearing) * sin (dist / turfEarthRadiusKm) *
            cos (toRad p.lat))
          (cos (dist / turfEarthRadiusKm) - sin (toRad p.lat) *
            sin (arcsin (sin (toRad p.lat) * cos (dist / turfEarthRadiusKm) +
              cos (toRad p.lat) * sin (dist / turfEarthRadiusKm) *
                cos (toRad bearing))))) := rfl

theorem atan2_sin_cos {θ : ℝ} (h1 : -π < θ) (h2 : θ ≤ π) :
    atan2 (sin θ) (cos θ) = θ := by
  have h := atan2_polar one_pos h1 h2
  rw [one_mul, one_mul] at h
  exact h

theorem atan2_pos_zero {y : ℝ} (hy : 0 < y) : atan2 y 0 = π / 2 := by
  have h := atan2_polar (θ := π / 2) hy
    (by linarith [Real.pi_pos]) (by linarith [Real.pi_pos])
  rw [Real.sin_pi_div_two, Real.cos_pi_div_two, mul_one, mul_zero] at h
  exact h

theorem atan2_neg_zero {y : ℝ} (hy : 0 < y) : atan2 (-y) 0 = -(π / 2) := by
  have h := atan2_polar (θ := -(π / 2)) hy
    (by linarith [Real.pi_pos]) (by linarith [Real.pi_pos])
  rw [Real.sin_neg, Real.cos_neg, Real.sin_pi_div_two, Real.cos_pi_div_two,
    mul_neg, mul_one, mul_zero] at h
  exact h

theorem sin_2pi3 : sin (2 * π / 3) = Real.sqrt 3 / 2 := by
  rw [show (2 * π / 3 : ℝ) = π - π / 3 by ring, Real.sin_pi_sub,
    Real.sin_pi_div_three]

theorem cos_2pi3 : cos (2 * π / 3) = -(1 / 2) := by
  rw [show (2 * π / 3 : ℝ) = π - π / 3 by ring, Real.cos_pi_sub,
    Real.cos_pi_div_three]

theorem sin_4pi3 : sin (4 * π / 3) = -(Real.sqrt 3 / 2) := by
  rw [show (4 * π / 3 : ℝ) = π + π / 3 by ring, Real.sin_add, Real.sin_pi,
    Real.cos_pi, Real.sin_pi_div_three]
  ring

theorem cos_4pi3 : cos (4 * π / 3) = -(1 / 2) := by
  rw [show (4 * π / 3 : ℝ) = π + π / 3 by ring, Real.cos_add, Real.sin_pi,
    Real.cos_pi, Real.cos_pi_div_three]
  ring

/-- The `turf.distance` between two equator points. -/
theorem turfDistance_equator (lo1 lo2 : ℝ)
    (hb : |toRad (lo2 - lo1) / 2| ≤ π / 2) :
    turfDistance ⟨0, lo1⟩ ⟨0, lo2⟩ =
      turfEarthRadiusKm * |toRad (lo2 - lo1)| := by
  obtain ⟨hb1, hb2⟩ := abs_le.mp hb
  have hπ := Real.pi_pos
  show 2 * atan2 (Real.sqrt _) (Real.sqrt _) * turfEarthRadiusKm = _
  rw [show toRad ((0 : ℝ) - 0) = 0 by unfold toRad; ring,
    show toRad (0 : ℝ) = 0 by unfold toRad; ring]
  rw [show (0 : ℝ) / 2 = 0 by norm_num, Real.sin_zero, Real.cos_zero]
  rw [show (0 : ℝ) ^ 2 + sin (toRad (lo2 - lo1) / 2) ^ 2 * 1 * 1 =
    sin (toRad (lo2 - lo1) / 2) ^ 2 by ring]
  rw [show (1 : ℝ) - sin (toRad (lo2 - lo1) / 2) ^ 2 =
      cos (toRad (lo2 - lo1) / 2) ^ 2 by
    have := Real.sin_sq_add_cos_sq (toRad (lo2 - lo1) / 2)
    linarith]
  rw [Real.sqrt_sq_eq_abs, Real.sqrt_sq_eq_abs]
  have hcos : 0 ≤ cos (toRad (lo2 - lo1) / 2) :=
    Real.cos_nonneg_of_mem_Icc ⟨by linarith, hb2⟩
  rw [abs_of_nonneg hcos]
  have habs : |sin (toRad (lo2 - lo1) / 2)| = sin |toRad (lo2 - lo1) / 2| ∧
      cos (toRad (lo2 - lo1) / 2) = cos |toRad (lo2 - lo1) / 2| := by
    rcases abs_cases (toRad (lo2 - lo1) / 2) with ⟨h, hx0⟩ | ⟨h, hx0⟩
    · rw [h]
      exact ⟨abs_of_nonneg (Real.sin_nonneg_of_nonneg_of_le_pi hx0
        (by linarith)), rfl⟩
    · rw [h, Real.sin_neg, Real.cos_neg]
      exact ⟨by
        rw [abs_of_nonpos (Real.sin_nonpos_of_nonnpos_of_neg_pi_le hx0.le
          (by linarith))], rfl⟩
  rw [habs.1, habs.2]
  rw [atan2_sin_cos (by linarith [abs_nonneg (toRad (lo2 - lo1) / 2)]) (by
    calc |toRad (lo2 - lo1) / 2| ≤ π / 2 := hb
    _ ≤ π := by linarith)]
  rw [show toRad (lo2 - lo1) = 2 * (toRad (lo2 - lo1) / 2) by ring, abs_mul]
  rw [abs_of_nonneg (by norm_num : (0:ℝ) ≤ 2)]
  ring_nf

/-- The `turf.bearing` between two equator points. -/
theorem turfBearing_equator (lo1 lo2 : ℝ) :
    turfBearing ⟨0, lo1⟩ ⟨0, lo2⟩ =
      toDeg (atan2 (sin (toRad (lo2 - lo1))) 0) := by
  show toDeg (atan2 _ _) = _
  rw [show toRad (0 : ℝ) = 0 by unfold toRad; ring]
  rw [Real.sin_zero, Real.cos_zero]
  rw [show toRad lo2 - toRad lo1 = toRad (lo2 - lo1) by unfold toRad; ring]
  norm_num

theorem toRad_120 : toRad (120 : ℝ) = 2 * π / 3 := by
  unfold toRad
  ring

theorem toDeg_zero : toDeg 0 = 0 := by
  unfold toDeg
  ring

theorem hD1_eval : turfDistance ⟨0, 0⟩ ⟨0, 120⟩ =
    turfEarthRadiusKm * (2 * π / 3) := by
  have hπ := Real.pi_pos
  rw [turfDistance_equator 0 120 (by
    rw [show (120 : ℝ) - 0 = 120 by norm_num, toRad_120]
    rw [abs_of_nonneg (by positivity)]
    linarith)]
  rw [show (120 : ℝ) - 0 = 120 by norm_num, toRad_120,
    abs_of_nonneg (by positivity)]

theorem hB1_eval : turfBearing ⟨0, 0⟩ ⟨0, 120⟩ = toDeg (π / 2) := by
  rw [turfBearing_equator, show (120 : ℝ) - 0 = 120 by norm_num, toRad_120,
    sin_2pi3, atan2_pos_zero (by positivity)]

theorem hT1_eval : turfDestination ⟨0, 0⟩
    (turfEarthRadiusKm * (2 * π / 3) * 2) (toDeg (π / 2)) =
    (⟨0, -120⟩ : Point) := by
  have hπ := Real.pi_pos
  have hRne : (turfEarthRadiusKm : ℝ) ≠ 0 := by norm_num [turfEarthRadiusKm]
  have hrad : turfEarthRadiusKm * (2 * π / 3) * 2 / turfEarthRadiusKm =
      4 * π / 3 := by
    field_simp
    ring
  have h0 : toRad (0 : ℝ) = 0 := by unfold toRad; ring
  apply Point.ext'
  · rw [turfDestination_lat, hrad, toRad_toDeg, h0, Real.cos_pi_div_two,
      Real.sin_zero, Real.cos_zero]
    rw [show (0 : ℝ) * cos (4 * π / 3) + 1 * sin (4 * π / 3) * 0 = 0 by ring,
      Real.arcsin_zero, toDeg_zero]
  · rw [turfDestination_lng, hrad, toRad_toDeg, h0, Real.cos_pi_div_two,
      Real.sin_pi_div_two, Real.sin_zero, Real.cos_zero]
    rw [show (0 : ℝ) * cos (4 * π / 3) + 1 * sin (4 * π / 3) * 0 = 0 by ring,
      Real.arcsin_zero, Real.sin_zero]
    rw [show (1 : ℝ) * sin (4 * π / 3) * 1 = sin (4 * π / 3) by ring,
      show cos (4 * π / 3) - (0 : ℝ) * 0 = cos (4 * π / 3) by ring]
    rw [sin_4pi3, cos_4pi3]
    rw [show -(Real.sqrt 3 / 2) = sin (-(2 * π / 3)) by
        rw [Real.sin_neg, show (2 * π / 3 : ℝ) = 2 * π / 3 from rfl, sin_2pi3],
      show -(1 / 2 : ℝ) = cos (-(2 * π / 3)) by rw [Real.cos_neg, cos_2pi3]]
    rw [atan2_sin_cos (by linarith) (by linarith)]
    unfold toDeg
    field_simp
    ring

theorem hD2_eval : turfDistance ⟨0, 0⟩ ⟨0, -120⟩ =
    turfEarthRadiusKm * (2 * π / 3) := by
  have hπ := Real.pi_pos
  have habs : |toRad ((-120 : ℝ) - 0)| = 2 * π / 3 := by
    rw [show (-120 : ℝ) - 0 = -(120) by norm_num]
    rw [show toRad (-(120 : ℝ)) = -(toRad 120) by unfold toRad; ring]
    rw [abs_neg, toRad_120, abs_of_nonneg (by positivity)]
  rw [turfDistance_equator 0 (-120) (by
    rw [show |toRad ((-120 : ℝ) - 0) / 2| = |toRad ((-120 : ℝ) - 0)| / 2 by
      rw [abs_div]
      norm_num]
    rw [habs]
    linarith), habs]

theorem hB2_eval : turfBearing ⟨0, 0⟩ ⟨0, -120⟩ = toDeg (-(π / 2)) := by
  rw [turfBearing_equator]
  rw [show toRad ((-120 : ℝ) - 0) = -(2 * π / 3) by
    rw [show (-120 : ℝ) - 0 = -(120) by norm_num]
    rw [show toRad (-(120 : ℝ)) = -(toRad 120) by unfold toRad; ring, toRad_120]]
  rw [Real.sin_neg, sin_2pi3, atan2_neg_zero (by positivity)]

theorem hT2_eval : turfDestination ⟨0, 0⟩
    (turfEarthRadiusKm * (2 * π / 3) / 2) (toDeg (-(π / 2))) =
    (⟨0, -60⟩ : Point) := by
  have hπ := Real.pi_pos
  have hRne : (turfEarthRadiusKm : ℝ) ≠ 0 := by norm_num [turfEarthRadiusKm]
  have hrad : turfEarthRadiusKm * (2 * π / 3) / 2 / turfEarthRadiusKm =
      π / 3 := by
    field_simp
    ring
  have h0 : toRad (0 : ℝ) = 0 := by unfold toRad; ring
  have hcn : cos (-(π / 2)) = 0 := by rw [Real.cos_neg, Real.cos_pi_div_two]
  have hsn : sin (-(π / 2)) = -1 := by
    rw [Real.sin_neg, Real.sin_pi_div_two]
  apply Point.ext'
  · rw [turfDestination_lat, hrad, toRad_toDeg, h0, hcn, Real.sin_zero,
      Real.cos_zero]
    rw [show (0 : ℝ) * cos (π / 3) + 1 * sin (π / 3) * 0 = 0 by ring,
      Real.arcsin_zero, toDeg_zero]
  · rw [turfDestination_lng, hrad, toRad_toDeg, h0, hcn, hsn, Real.sin_zero,
      Real.cos_zero]
    rw [show (0 : ℝ) * cos (π / 3) + 1 * sin (π / 3) * 0 = 0 by ring,
      Real.arcsin_zero, Real.sin_zero]
    rw [show (-1 : ℝ) * sin (π / 3) * 1 = -(sin (π / 3)) by ring,
      show cos (π / 3) - (0 : ℝ) * 0 = cos (π / 3) by ring]
    rw [show -(sin (π / 3)) = sin (-(π / 3)) by rw [Real.sin_neg],
      show cos (π / 3) = cos (-(π / 3)) by rw [Real.cos_neg]]
    rw [atan2_sin_cos (by linarith) (by linarith)]
    unfold toDeg
    field_simp
    ring

theorem hE3_eval : turfDistance ⟨0, -60⟩ ⟨0, 120⟩ = turfEarthRadiusKm * π := by
  have hπ := Real.pi_pos
  have habs : |toRad ((120 : ℝ) - -60)| = π := by
    rw [show (120 : ℝ) - -60 = 180 by norm_num]
    rw [show toRad (180 : ℝ) = π by unfold toRad; ring]
    rw [abs_of_nonneg (by positivity)]
  rw [turfDistance_equator (-60) 120 (by
    rw [show |toRad ((120 : ℝ) - -60) / 2| = |toRad ((120 : ℝ) - -60)| / 2 by
      rw [abs_div]
      norm_num]
    rw [habs]), habs]

/-- C1 (counterexample).  At source `(0°,0°)`, target `(0°,120°)` the
source→target distance (≈13343 km) is within `MAX_DISTANCE_KM`, so
`calculateReflection` returns a point `R` — but the geodesic midpoint of
source and `R` is the antipode of the target, more than 20000 km away from
it: the claimed `midpoint(source, R) ≈ target` fails for any tolerance. -/
theorem c1_counterexample :
    ∃ r, calculateReflection ⟨0, 0⟩ ⟨0, 120⟩ = some r ∧
      turfDistance ⟨0, 0⟩ ⟨0, 120⟩ ≤ MAX_DISTANCE_KM ∧
      MAX_DISTANCE_KM <
        turfDistance (turfMidpoint ⟨0, 0⟩ ⟨r.lat, r.lng⟩) ⟨0, 120⟩ := by
  have hπ := Real.pi_pos
  have hdle : turfDistance ⟨0, 0⟩ ⟨0, 120⟩ ≤ MAX_DISTANCE_KM := by
    rw [hD1_eval]
    norm_num [turfEarthRadiusKm, MAX_DISTANCE_KM]
    nlinarith [Real.pi_lt_d2]
  have hnot : ¬ MAX_DISTANCE_KM < turfDistance ⟨0, 0⟩ ⟨0, 120⟩ :=
    not_lt.mpr hdle
  refine ⟨⟨0, -120, turfEarthRadiusKm * (2 * π / 3)⟩, ?_, hdle, ?_⟩
  · simp only [calculateReflection, if_neg hnot]
    rw [hD1_eval, hB1_eval, hT1_eval]
  · show MAX_DISTANCE_KM <
      turfDistance (turfMidpoint ⟨0, 0⟩ ⟨0, -120⟩) ⟨0, 120⟩
    rw [show turfMidpoint ⟨0, 0⟩ ⟨0, -120⟩ = (⟨0, -60⟩ : Point) by
      unfold turfMidpoint
      rw [hD2_eval, hB2_eval]
      exact hT2_eval]
    rw [hE3_eval]
    norm_num [turfEarthRadiusKm, MAX_DISTANCE_KM]
    nlinarith [Real.pi_gt_d4]

/-! ## C10: the worker midpoint's longitude range -/
/-- Half-angle form of `atan2`: `atan2 (sin x) (1 + cos x) = x / 2` on
`(-π, π)`. -/
theorem atan2_half (x : ℝ) (h1 : -π < x) (h2 : x < π) :
    atan2 (sin x) (1 + cos x) = x / 2 := by
  have hc : 0 < cos (x / 2) :=
    Real.cos_pos_of_mem_Ioo ⟨by linarith, by linarith⟩
  have hs2 := Real.sin_two_mul (x / 2)
  have hc2 := Real.cos_two_mul (x / 2)
  rw [show 2 * (x / 2) = x by ring] at hs2 hc2
  rw [show sin x = 2 * cos (x / 2) * sin (x / 2) by rw [hs2]; ring,
    show 1 + cos x = 2 * cos (x / 2) * cos (x / 2) by rw [hc2]; ring]
  exact atan2_polar (by positivity) (by linarith) (by linarith)

/-- C10 (counterexample).  The worker's JS-fallback geodesic midpoint of
`(0°,170°)` and `(0°,-150°)` — both longitudes in `[-180,180]` — returns
longitude `190`, outside `[-180,180]`: the computed longitude is not
normalized. -/
theorem c10_counterexample :
    (geodesicMidpoint 0 170 0 (-150)).2 = 190 ∧
      ¬((geodesicMidpoint 0 170 0 (-150)).2 ≤ 180) := by
  have hπ := Real.pi_pos
  have hval : (geodesicMidpoint 0 170 0 (-150)).2 = 190 := by
    show toDeg (toRad 170 + atan2 (cos (toRad 0) * sin (toRad (-150) - toRad 170))
      (cos (toRad 0) + cos (toRad 0) * cos (toRad (-150) - toRad 170))) = 190
    rw [show toRad (0 : ℝ) = 0 by unfold toRad; ring, Real.cos_zero]
    rw [show toRad (-150 : ℝ) - toRad 170 = 2 * π / 9 - 2 * π by
      unfold toRad; ring]
    rw [Real.sin_sub_two_pi, Real.cos_sub_two_pi]
    rw [show (1 : ℝ) * sin (2 * π / 9) = sin (2 * π / 9) by ring,
      show (1 : ℝ) + 1 * cos (2 * π / 9) = 1 + cos (2 * π / 9) by ring]
    rw [atan2_half (2 * π / 9) (by linarith) (by linarith)]
    unfold toDeg toRad
    field_simp
    ring
  refine ⟨hval, ?_⟩
  rw [hval]
  norm_num

/-- C10 (amended).  For longitudes `lon1 ∈ [-180, 180]`, the worker's
JS-fallback geodesic midpoint longitude lies in `(-360, 360]` (it equals
`lon1` plus a value in `(-180, 180]`); it is *not* normalized into
`[-180, 180]`. -/
theorem c10_amended (lat1 lon1 lat2 lon2 : ℝ)
    (h1 : -180 ≤ lon1) (h2 : lon1 ≤ 180) :
    -360 < (geodesicMidpoint lat1 lon1 lat2 lon2).2 ∧
      (geodesicMidpoint lat1 lon1 lat2 lon2).2 ≤ 360 := by
  have hπ := Real.pi_pos
  have key : ∀ y x : ℝ,
      -360 < toDeg (toRad lon1 + atan2 y x) ∧
        toDeg (toRad lon1 + atan2 y x) ≤ 360 := by
    intro y x
    have harg1 : -π < atan2 y x := Complex.neg_pi_lt_arg _
    have harg2 : atan2 y x ≤ π := Complex.arg_le_pi _
    have hsplit : toDeg (toRad lon1 + atan2 y x) =
        lon1 + atan2 y x * 180 / π := by
      unfold toDeg toRad
      field_simp
    have t1 : -180 * π < atan2 y x * 180 := by nlinarith
    have t2 : atan2 y x * 180 ≤ 180 * π := by nlinarith
    have d1 : (-180 : ℝ) < atan2 y x * 180 / π := by
      rw [lt_div_iff₀ hπ]
      linarith
    have d2 : atan2 y x * 180 / π ≤ 180 := by
      rw [div_le_iff₀ hπ]
      linarith
    rw [hsplit]
    constructor
    · linarith
    · linarith
  exact key _ _

/-- Witness for C10's amended theorem at `(0,0)`–`(0,0)`. -/
theorem c10_witness :
    (-180 : ℝ) ≤ 0 ∧ (0 : ℝ) ≤ 180 ∧
      (-360 < (geodesicMidpoint 0 0 0 0).2 ∧
        (geodesicMidpoint 0 0 0 0).2 ≤ 360) :=
  ⟨by norm_num, by norm_num, c10_amended 0 0 0 0 (by norm_num) (by norm_num)⟩

theorem comboLe_trans : ∀ a b c : Combo,
    comboLe a b → comboLe b c → comboLe a c := by
  intro a b c hab hbc
  simp only [comboLe, decide_eq_true_eq] at *
  exact le_trans hab hbc

theorem comboLe_total : ∀ a b : Combo, comboLe a b || comboLe b a := by
  intro a b
  simp only [comboLe, Bool.or_eq_true, decide_eq_true_eq]
  exact le_total _ _

theorem crossPairs_zero_right (n : ℕ) : crossPairs n 0 = [] := by
  unfold crossPairs
  induction n with
  | zero => simp
  | succ k ih =>
    rw [List.range_succ, List.flatMap_append] at *
    simp [ih]

theorem crossPairs_eq_map_range (n m : ℕ) :
    crossPairs n m = (List.range (n * m)).map fun k => (k / m, k % m) := by
  rcases Nat.eq_zero_or_pos m with hm | hm
  · subst hm
    rw [crossPairs_zero_right]
    simp
  induction n with
  | zero => simp [crossPairs]
  | succ k ih =>
    unfold crossPairs at *
    rw [List.range_succ, List.flatMap_append, ih, List.flatMap_singleton]
    rw [show (k + 1) * m = k * m + m by ring, List.range_add,
      List.map_append, List.map_map]
    congr 1
    apply List.map_congr_left
    intro j hj
    have hjm : j < m := List.mem_range.mp hj
    simp only [Function.comp_apply]
    have hd : (k * m + j) / m = k := by
      rw [Nat.mul_comm, Nat.mul_add_div hm, Nat.div_eq_of_lt hjm]
      omega
    have hmod : (k * m + j) % m = j := by
      rw [Nat.mul_comm k m, Nat.mul_add_mod, Nat.mod_eq_of_lt hjm]
    rw [hd, hmod]

theorem crossPairs_nodup (n m : ℕ) : (crossPairs n m).Nodup := by
  rw [crossPairs_eq_map_range]
  apply List.Nodup.map_on
  · intro x hx y hy hxy
    have hx' : x < n * m := List.mem_range.mp hx
    have hy' : y < n * m := List.mem_range.mp hy
    have e1 := Nat.div_add_mod x m
    have e2 := Nat.div_add_mod y m
    have h1 : x / m = y / m := congrArg Prod.fst hxy
    have h2 : x % m = y % m := congrArg Prod.snd hxy
    rw [← e1, ← e2, h1, h2]
  · exact List.nodup_range _

theorem crossPairs_length (n m : ℕ) : (crossPairs n m).length = n * m := by
  rw [crossPairs_eq_map_range]
  simp

/-- Positions in the row-major scan are ordered exactly by `pairLt`. -/
theorem pairLt_div_mod {m r1 r2 : ℕ} (hm : 0 < m) (h : r1 < r2) :
    pairLt (r1 / m, r1 % m) (r2 / m, r2 % m) := by
  have hdiv : r1 / m ≤ r2 / m := Nat.div_le_div_right h.le
  rcases lt_or_eq_of_le hdiv with hlt | heq
  · exact Or.inl hlt
  · refine Or.inr ⟨heq, ?_⟩
    have e1 := Nat.div_add_mod r1 m
    have e2 := Nat.div_add_mod r2 m
    rw [heq] at e1
    have := Nat.mod_lt r1 hm
    have := Nat.mod_lt r2 hm
    linarith

theorem allCombos_eq_scan (A B : List Point) (tlat tlon : ℝ) :
    allCombos A B tlat tlon =
      (List.range A.length).flatMap fun i =>
        (List.range B.length).map fun j => comboAt A B tlat tlon i j := rfl

theorem allCombos_eq_map_range (A B : List Point) (tlat tlon : ℝ) :
    allCombos A B tlat tlon =
      (List.range (A.length * B.length)).map fun k =>
        comboAt A B tlat tlon (k / B.length) (k % B.length) := by
  have h := crossPairs_eq_map_range A.length B.length
  rw [allCombos_eq_scan]
  have h2 : (crossPairs A.length B.length).map
      (fun p : ℕ × ℕ => comboAt A B tlat tlon p.1 p.2) =
      (List.range A.length).flatMap fun i =>
        (List.range B.length).map fun j => comboAt A B tlat tlon i j := by
    unfold crossPairs
    rw [List.map_flatMap]
    apply List.flatMap_congr
    intro i hi
    rw [List.map_map]
    rfl
  rw [← h2, h, List.map_map]
  rfl

theorem allCombos_length (A B : List Point) (tlat tlon : ℝ) :
    (allCombos A B tlat tlon).length = A.length * B.length := by
  rw [allCombos_eq_map_range]
  simp

theorem allCombos_map_pair (A B : List Point) (tlat tlon : ℝ) :
    (allCombos A B tlat tlon).map (fun c => (c.indexA, c.indexB)) =
      crossPairs A.length B.length := by
  rw [allCombos_eq_map_range, crossPairs_eq_map_range, List.map_map]
  rfl

theorem jsSlice_of_le {α : Type} {l : List α} {e : ℤ}
    (h : (l.length : ℤ) ≤ e) : jsSlice l e = l := by
  unfold jsSlice
  rw [if_neg (by omega)]
  exact List.take_of_length_le (by omega)

theorem allCombos_get (A B : List Point) (tlat tlon : ℝ) (r : ℕ)
    (hr : r < (allCombos A B tlat tlon).length) :
    (allCombos A B tlat tlon).get ⟨r, hr⟩ =
      comboAt A B tlat tlon (r / B.length) (r % B.length) := by
  have h := allCombos_eq_map_range A B tlat tlon
  have hr' : r < A.length * B.length := by
    rw [← allCombos_length A B tlat tlon]
    exact hr
  simp only [List.get_eq_getElem]
  rw [List.getElem_of_eq h hr, List.getElem_map, List.getElem_range]

/-- C2 (confirmed).  With `topN ≥ n·m`, the worker's JS search returns all
`n·m` combinations, sorted ascending by score, whose `(indexA, indexB)`
pairs are exactly the full cross product — no duplicates, no omissions. -/
theorem c2_full_cross_product (A B : List Point) (tlat tlon : ℝ)
    (topN : ℤ) (h : (A.length * B.length : ℤ) ≤ topN) :
    (findBestCombinationsJS A B tlat tlon topN).length =
      A.length * B.length ∧
    (findBestCombinationsJS A B tlat tlon topN).Pairwise
      (fun a b => a.score ≤ b.score) ∧
    List.Perm ((findBestCombinationsJS A B tlat tlon topN).map
      (fun c => (c.indexA, c.indexB))) (crossPairs A.length B.length) ∧
    ((findBestCombinationsJS A B tlat tlon topN).map
      (fun c => (c.indexA, c.indexB))).Nodup := by
  have hlen : ((allCombos A B tlat tlon).mergeSort comboLe).length =
      A.length * B.length := by
    rw [List.length_mergeSort, allCombos_length]
  have hfull : findBestCombinationsJS A B tlat tlon topN =
      (allCombos A B tlat tlon).mergeSort comboLe := by
    unfold findBestCombinationsJS
    apply jsSlice_of_le
    rw [hlen]
    exact_mod_cast h
  rw [hfull]
  have hperm : List.Perm ((allCombos A B tlat tlon).mergeSort comboLe)
      (allCombos A B tlat tlon) := List.mergeSort_perm _ _
  have hpairperm : List.Perm (((allCombos A B tlat tlon).mergeSort comboLe).map
      (fun c => (c.indexA, c.indexB))) (crossPairs A.length B.length) := by
    have := hperm.map (fun c => (c.indexA, c.indexB))
    rw [allCombos_map_pair] at this
    exact this
  refine ⟨hlen, ?_, hpairperm, ?_⟩
  · have hs := List.sorted_mergeSort comboLe_trans comboLe_total
      (allCombos A B tlat tlon)
    exact hs.imp (by
      intro a b hab
      simpa [comboLe, decide_eq_true_eq] using hab)
  · exact hpairperm.nodup_iff.mpr (crossPairs_nodup _ _)

/-- Witness for C2 at a single point in each list with `topN = 1`. -/
theorem c2_witness :
    ((([(⟨0, 0⟩ : Point)].length * [(⟨0, 0⟩ : Point)].length : ℕ) : ℤ) ≤ 1) ∧
    ((findBestCombinationsJS [⟨0, 0⟩] [⟨0, 0⟩] 0 0 1).length =
      [(⟨0, 0⟩ : Point)].length * [(⟨0, 0⟩ : Point)].length ∧
    (findBestCombinationsJS [⟨0, 0⟩] [⟨0, 0⟩] 0 0 1).Pairwise
      (fun a b => a.score ≤ b.score) ∧
    List.Perm ((findBestCombinationsJS [⟨0, 0⟩] [⟨0, 0⟩] 0 0 1).map
      (fun c => (c.indexA, c.indexB)))
        (crossPairs [(⟨0, 0⟩ : Point)].length [(⟨0, 0⟩ : Point)].length) ∧
    ((findBestCombinationsJS [⟨0, 0⟩] [⟨0, 0⟩] 0 0 1).map
      (fun c => (c.indexA, c.indexB))).Nodup) :=
  ⟨by simp, c2_full_cross_product [⟨0, 0⟩] [⟨0, 0⟩] 0 0 1 (by simp)⟩

/-- C3 (amended).  The worker's JS search returns the empty list when
either point list is empty or `topN = 0`; but for negative `topN`,
JS `slice(0, topN)` drops the last `|topN|` entries instead of returning
an empty result: the length is `max 0 (n·m + topN)`. -/
theorem c3_empty_and_negative (A B : List Point) (tlat tlon : ℝ)
    (topN : ℤ) :
    (A = [] → findBestCombinationsJS A B tlat tlon topN = []) ∧
    (B = [] → findBestCombinationsJS A B tlat tlon topN = []) ∧
    (topN = 0 → findBestCombinationsJS A B tlat tlon topN = []) ∧
    (topN < 0 → (findBestCombinationsJS A B tlat tlon topN).length =
      ((A.length * B.length : ℤ) + topN).toNat) := by
  have hlen : ((allCombos A B tlat tlon).mergeSort comboLe).length =
      A.length * B.length := by
    rw [List.length_mergeSort, allCombos_length]
  refine ⟨?_, ?_, ?_, ?_⟩
  · intro hA
    have : allCombos A B tlat tlon = [] := by
      rw [← List.length_eq_zero, allCombos_length, hA]
      simp
    unfold findBestCombinationsJS jsSlice
    rw [this]
    simp [List.mergeSort_nil]
  · intro hB
    have : allCombos A B tlat tlon = [] := by
      rw [← List.length_eq_zero, allCombos_length, hB]
      simp
    unfold findBestCombinationsJS jsSlice
    rw [this]
    simp [List.mergeSort_nil]
  · intro h0
    subst h0
    unfold findBestCombinationsJS jsSlice
    simp
  · intro hneg
    unfold findBestCombinationsJS jsSlice
    rw [if_pos hneg, List.length_take, hlen]
    omega

/-- Witness for C3's amended theorem with an empty A list. -/
theorem c3_witness :
    ([] : List Point) = [] ∧ findBestCombinationsJS [] [] 0 0 3 = [] :=
  ⟨rfl, (c3_empty_and_negative [] [] 0 0 3).1 rfl⟩

theorem atan2_zero_pos {x : ℝ} (hx : 0 < x) : atan2 0 x = 0 := by
  unfold atan2
  rw [show ((x : ℂ) + (0 : ℝ) * Complex.I) = ((x : ℝ) : ℂ) by push_cast; ring]
  exact Complex.arg_ofReal_of_nonneg hx.le

theorem geodesicMidpoint_zero : geodesicMidpoint 0 0 0 0 = (0, 0) := by
  have h0 : toRad (0 : ℝ) = 0 := by unfold toRad; ring
  show (toDeg (atan2 _ _), toDeg (_ + atan2 _ _)) = (0, 0)
  rw [h0, Real.sin_zero, Real.cos_zero, sub_self, Real.sin_zero,
    Real.cos_zero]
  rw [show (1 : ℝ) * 1 = 1 by ring, show (1 : ℝ) * 0 = 0 by ring]
  rw [show ((1 : ℝ) + 1) ^ 2 + 0 ^ 2 = 2 ^ 2 by norm_num,
    Real.sqrt_sq (by norm_num : (0:ℝ) ≤ 2)]
  rw [show (0 : ℝ) + 0 = 0 by ring, atan2_zero_pos (by norm_num : (0:ℝ) < 2)]
  rw [show (1 : ℝ) + 1 = 2 by norm_num, atan2_zero_pos (by norm_num : (0:ℝ) < 2)]
  rw [show (0 : ℝ) + 0 = 0 by ring, toDeg_zero]

theorem haversineDistance_zero : haversineDistance 0 0 0 0 = 0 := by
  have h0 : toRad (0 : ℝ) = 0 := by unfold toRad; ring
  show EARTH_RADIUS_KM * (2 * arcsin (Real.sqrt _)) = 0
  rw [show (0 : ℝ) - 0 = 0 by ring, h0]
  rw [show (0 : ℝ) / 2 = 0 by ring, Real.sin_zero, Real.cos_zero]
  rw [show (0 : ℝ) ^ 2 + 1 * 1 * 0 ^ 2 = 0 by ring, Real.sqrt_zero,
    Real.arcsin_zero]
  ring

theorem comboAt_pp_score (i : ℕ) :
    (comboAt [⟨0, 0⟩, ⟨0, 0⟩] [⟨0, 0⟩] 0 0 i 0).score = 0 := by
  unfold comboAt
  have hA : (([(⟨0, 0⟩ : Point)] : List Point).getD 0 default).lat = 0 := rfl
  have hgetA : (([⟨0, 0⟩, ⟨0, 0⟩] : List Point).getD i default) =
      (⟨0, 0⟩ : Point) := by
    rcases i with _ | _ | i <;> rfl
  rw [hgetA]
  show haversineDistance (geodesicMidpoint 0 0 0 0).1
    (geodesicMidpoint 0 0 0 0).2 0 0 = 0
  rw [geodesicMidpoint_zero]
  exact haversineDistance_zero

theorem ppEval : findBestCombinationsJS [⟨0, 0⟩, ⟨0, 0⟩] [⟨0, 0⟩] 0 0 (-1) =
    [comboAt [⟨0, 0⟩, ⟨0, 0⟩] [⟨0, 0⟩] 0 0 0 0] := by
  have hcombos : allCombos [⟨0, 0⟩, ⟨0, 0⟩] [⟨0, 0⟩] 0 0 =
      [comboAt [⟨0, 0⟩, ⟨0, 0⟩] [⟨0, 0⟩] 0 0 0 0,
       comboAt [⟨0, 0⟩, ⟨0, 0⟩] [⟨0, 0⟩] 0 0 1 0] := rfl
  have hle : comboLe (comboAt [⟨0, 0⟩, ⟨0, 0⟩] [⟨0, 0⟩] 0 0 0 0)
      (comboAt [⟨0, 0⟩, ⟨0, 0⟩] [⟨0, 0⟩] 0 0 1 0) = true := by
    simp [comboLe, comboAt_pp_score]
  have hsort : (allCombos [⟨0, 0⟩, ⟨0, 0⟩] [⟨0, 0⟩] 0 0).mergeSort comboLe =
      [comboAt [⟨0, 0⟩, ⟨0, 0⟩] [⟨0, 0⟩] 0 0 0 0,
       comboAt [⟨0, 0⟩, ⟨0, 0⟩] [⟨0, 0⟩] 0 0 1 0] := by
    rw [hcombos]
    exact List.mergeSort_of_sorted (List.pairwise_pair.mpr hle)
  unfold findBestCombinationsJS jsSlice
  rw [hsort]
  norm_num

/-- C3 (counterexample).  With two points in A, one in B and `topN = -1`
(which is `≤ 0`), the worker's JS search returns one combination, not the
empty result: JS `slice(0, -1)` keeps everything but the last entry. -/
theorem c3_counterexample :
    (-1 : ℤ) ≤ 0 ∧
    findBestCombinationsJS [⟨0, 0⟩, ⟨0, 0⟩] [⟨0, 0⟩] 0 0 (-1) ≠ [] := by
  refine ⟨by norm_num, ?_⟩
  rw [ppEval]
  simp

theorem enum_mem_get {α : Type} {l : List α} {x : ℕ × α} (h : x ∈ l.enum) :
    ∃ hh : x.1 < l.length, l.get ⟨x.1, hh⟩ = x.2 := by
  obtain ⟨a, b⟩ := x
  obtain ⟨i, hi, hx⟩ := List.mem_iff_getElem.mp h
  have hi' : i < l.length := by simpa using hi
  have hval : l.enum[i] = (i, l.get ⟨i, hi'⟩) := by
    simp [List.enum]
  rw [hval] at hx
  rw [Prod.mk.injEq] at hx
  obtain ⟨h1, h2⟩ := hx
  subst h1
  exact ⟨hi', h2⟩

theorem comboAt_indexA (A B : List Point) (tlat tlon : ℝ) (i j : ℕ) :
    (comboAt A B tlat tlon i j).indexA = i := rfl

theorem comboAt_indexB (A B : List Point) (tlat tlon : ℝ) (i j : ℕ) :
    (comboAt A B tlat tlon i j).indexB = j := rfl

/-- Stability of the sorted scan: among equal-score entries of the sorted
combination list, the `(indexA, indexB)` pairs appear in row-major
encounter order. -/
theorem sorted_tie_indices (A B : List Point) (tlat tlon : ℝ)
    (k1 k2 : ℕ)
    (h1 : k1 < ((allCombos A B tlat tlon).mergeSort comboLe).length)
    (h2 : k2 < ((allCombos A B tlat tlon).mergeSort comboLe).length)
    (hk : k1 < k2)
    (heq : (((allCombos A B tlat tlon).mergeSort comboLe).get ⟨k1, h1⟩).score =
      (((allCombos A B tlat tlon).mergeSort comboLe).get ⟨k2, h2⟩).score) :
    pairLt
      ((((allCombos A B tlat tlon).mergeSort comboLe).get ⟨k1, h1⟩).indexA,
        (((allCombos A B tlat tlon).mergeSort comboLe).get ⟨k1, h1⟩).indexB)
      ((((allCombos A B tlat tlon).mergeSort comboLe).get ⟨k2, h2⟩).indexA,
        (((allCombos A B tlat tlon).mergeSort comboLe).get ⟨k2, h2⟩).indexB) := by
  have hmap : ((allCombos A B tlat tlon).enum.mergeSort
      (List.enumLE comboLe)).map (·.2) =
      (allCombos A B tlat tlon).mergeSort comboLe := List.mergeSort_enum
  have hlenE : ((allCombos A B tlat tlon).enum.mergeSort
      (List.enumLE comboLe)).length =
      ((allCombos A B tlat tlon).mergeSort comboLe).length := by
    rw [← hmap, List.length_map]
  have h1E : k1 < ((allCombos A B tlat tlon).enum.mergeSort
      (List.enumLE comboLe)).length := by omega
  have h2E : k2 < ((allCombos A B tlat tlon).enum.mergeSort
      (List.enumLE comboLe)).length := by omega
  have hget1 : ((allCombos A B tlat tlon).mergeSort comboLe).get ⟨k1, h1⟩ =
      (((allCombos A B tlat tlon).enum.mergeSort
        (List.enumLE comboLe)).get ⟨k1, h1E⟩).2 := by
    simp only [List.get_eq_getElem]
    rw [List.getElem_of_eq hmap.symm h1, List.getElem_map]
  have hget2 : ((allCombos A B tlat tlon).mergeSort comboLe).get ⟨k2, h2⟩ =
      (((allCombos A B tlat tlon).enum.mergeSort
        (List.enumLE comboLe)).get ⟨k2, h2E⟩).2 := by
    simp only [List.get_eq_getElem]
    rw [List.getElem_of_eq hmap.symm h2, List.getElem_map]
  have hscore : (((allCombos A B tlat tlon).enum.mergeSort
      (List.enumLE comboLe)).get ⟨k1, h1E⟩).2.score =
      (((allCombos A B tlat tlon).enum.mergeSort
        (List.enumLE comboLe)).get ⟨k2, h2E⟩).2.score := by
    rw [← hget1, ← hget2]
    exact heq
  simp only [List.get_eq_getElem] at hscore
  -- sortedness in the tie-breaking order gives index order
  have hp := List.sorted_mergeSort (List.enumLE_trans comboLe_trans)
    (List.enumLE_total comboLe_total) (allCombos A B tlat tlon).enum
  have hrel := List.pairwise_iff_getElem.mp hp k1 k2 h1E h2E hk
  have hc12 : comboLe (((allCombos A B tlat tlon).enum.mergeSort
      (List.enumLE comboLe)).get ⟨k1, h1E⟩).2
      (((allCombos A B tlat tlon).enum.mergeSort
        (List.enumLE comboLe)).get ⟨k2, h2E⟩).2 = true := by
    simp [comboLe, hscore]
  have hc21 : comboLe (((allCombos A B tlat tlon).enum.mergeSort
      (List.enumLE comboLe)).get ⟨k2, h2E⟩).2
      (((allCombos A B tlat tlon).enum.mergeSort
        (List.enumLE comboLe)).get ⟨k1, h1E⟩).2 = true := by
    simp [comboLe, hscore]
  simp only [List.get_eq_getElem] at hc12 hc21
  simp only [List.enumLE, hc12, hc21, if_true] at hrel
  have hle12 : (((allCombos A B tlat tlon).enum.mergeSort
      (List.enumLE comboLe)).get ⟨k1, h1E⟩).1 ≤
      (((allCombos A B tlat tlon).enum.mergeSort
        (List.enumLE comboLe)).get ⟨k2, h2E⟩).1 := by
    simp only [List.get_eq_getElem]
    simpa using hrel
  -- first components are distinct
  have hnofst : (((allCombos A B tlat tlon).enum.mergeSort
      (List.enumLE comboLe)).map Prod.fst).Nodup := by
    have hperm := (List.mergeSort_perm (allCombos A B tlat tlon).enum
      (List.enumLE comboLe)).map Prod.fst
    rw [List.enum_map_fst] at hperm
    exact hperm.nodup_iff.mpr (List.nodup_range _)
  have hne : (((allCombos A B tlat tlon).enum.mergeSort
      (List.enumLE comboLe)).get ⟨k1, h1E⟩).1 ≠
      (((allCombos A B tlat tlon).enum.mergeSort
        (List.enumLE comboLe)).get ⟨k2, h2E⟩).1 := by
    intro hfst
    have hm1 : k1 < (((allCombos A B tlat tlon).enum.mergeSort
        (List.enumLE comboLe)).map Prod.fst).length := by
      rw [List.length_map]
      exact h1E
    have hm2 : k2 < (((allCombos A B tlat tlon).enum.mergeSort
        (List.enumLE comboLe)).map Prod.fst).length := by
      rw [List.length_map]
      exact h2E
    have : (((allCombos A B tlat tlon).enum.mergeSort
        (List.enumLE comboLe)).map Prod.fst)[k1] =
        (((allCombos A B tlat tlon).enum.mergeSort
          (List.enumLE comboLe)).map Prod.fst)[k2] := by
      rw [List.getElem_map, List.getElem_map]
      simp only [List.get_eq_getElem] at hfst
      exact hfst
    have := (hnofst.getElem_inj_iff).mp this
    omega
  have hlt : (((allCombos A B tlat tlon).enum.mergeSort
      (List.enumLE comboLe)).get ⟨k1, h1E⟩).1 <
      (((allCombos A B tlat tlon).enum.mergeSort
        (List.enumLE comboLe)).get ⟨k2, h2E⟩).1 :=
    lt_of_le_of_ne hle12 hne
  -- read off original positions
  have hmem1 : (((allCombos A B tlat tlon).enum.mergeSort
      (List.enumLE comboLe)).get ⟨k1, h1E⟩) ∈
      (allCombos A B tlat tlon).enum := by
    rw [← @List.mem_mergeSort _ (List.enumLE comboLe)]
    exact List.get_mem _ _ _
  have hmem2 : (((allCombos A B tlat tlon).enum.mergeSort
      (List.enumLE comboLe)).get ⟨k2, h2E⟩) ∈
      (allCombos A B tlat tlon).enum := by
    rw [← @List.mem_mergeSort _ (List.enumLE comboLe)]
    exact List.get_mem _ _ _
  obtain ⟨hr1, hv1⟩ := enum_mem_get hmem1
  obtain ⟨hr2, hv2⟩ := enum_mem_get hmem2
  have hm : 0 < B.length := by
    rcases Nat.eq_zero_or_pos B.length with h0 | h0
    · exfalso
      have := allCombos_length A B tlat tlon
      rw [h0] at this
      omega
    · exact h0
  rw [hget1, hget2, ← hv1, ← hv2, allCombos_get, allCombos_get,
    comboAt_indexA, comboAt_indexB, comboAt_indexA, comboAt_indexB]
  exact pairLt_div_mod hm hlt

theorem jsSlice_getElem {α : Type} (l : List α) (e : ℤ) (k : ℕ)
    (h : k < (jsSlice l e).length) :
    ∃ hh : k < l.length, (jsSlice l e).get ⟨k, h⟩ = l.get ⟨k, hh⟩ := by
  have htake : jsSlice l e =
      l.take (if e < 0 then (l.length + e).toNat else e.toNat) := by
    unfold jsSlice
    split <;> rfl
  have hlen : (jsSlice l e).length ≤ l.length := by
    rw [htake, List.length_take]
    omega
  refine ⟨by omega, ?_⟩
  simp only [List.get_eq_getElem]
  rw [List.getElem_of_eq htake h, List.getElem_take]

/-- C4 (confirmed).  In the worker's JS search results, entries with equal
scores appear in row-major `(i outer, j inner)` encounter order: among
equal-score entries, position order coincides with `pairLt` on the
`(indexA, indexB)` pairs. -/
theorem c4_tie_encounter_order (A B : List Point) (tlat tlon : ℝ)
    (topN : ℤ) (k1 k2 : ℕ)
    (h1 : k1 < (findBestCombinationsJS A B tlat tlon topN).length)
    (h2 : k2 < (findBestCombinationsJS A B tlat tlon topN).length)
    (heq : ((findBestCombinationsJS A B tlat tlon topN).get ⟨k1, h1⟩).score =
      ((findBestCombinationsJS A B tlat tlon topN).get ⟨k2, h2⟩).score) :
    (k1 < k2 ↔ pairLt
      (((findBestCombinationsJS A B tlat tlon topN).get ⟨k1, h1⟩).indexA,
        ((findBestCombinationsJS A B tlat tlon topN).get ⟨k1, h1⟩).indexB)
      (((findBestCombinationsJS A B tlat tlon topN).get ⟨k2, h2⟩).indexA,
        ((findBestCombinationsJS A B tlat tlon topN).get ⟨k2, h2⟩).indexB)) := by
  unfold findBestCombinationsJS at h1 h2 heq ⊢
  obtain ⟨h1', e1⟩ := jsSlice_getElem _ _ _ h1
  obtain ⟨h2', e2⟩ := jsSlice_getElem _ _ _ h2
  rw [e1, e2] at heq ⊢
  constructor
  · intro hk
    exact sorted_tie_indices A B tlat tlon k1 k2 h1' h2' hk heq
  · intro hpl
    by_contra hnk
    push_neg at hnk
    rcases lt_or_eq_of_le hnk with hlt | heqk
    · have hpl2 := sorted_tie_indices A B tlat tlon k2 k1 h2' h1' hlt heq.symm
      unfold pairLt at hpl hpl2
      omega
    · subst heqk
      unfold pairLt at hpl
      omega

theorem ppSorted :
    (allCombos [⟨0, 0⟩, ⟨0, 0⟩] [⟨0, 0⟩] 0 0).mergeSort comboLe =
      [comboAt [⟨0, 0⟩, ⟨0, 0⟩] [⟨0, 0⟩] 0 0 0 0,
       comboAt [⟨0, 0⟩, ⟨0, 0⟩] [⟨0, 0⟩] 0 0 1 0] := by
  have hcombos : allCombos [⟨0, 0⟩, ⟨0, 0⟩] [⟨0, 0⟩] 0 0 =
      [comboAt [⟨0, 0⟩, ⟨0, 0⟩] [⟨0, 0⟩] 0 0 0 0,
       comboAt [⟨0, 0⟩, ⟨0, 0⟩] [⟨0, 0⟩] 0 0 1 0] := rfl
  have hle : comboLe (comboAt [⟨0, 0⟩, ⟨0, 0⟩] [⟨0, 0⟩] 0 0 0 0)
      (comboAt [⟨0, 0⟩, ⟨0, 0⟩] [⟨0, 0⟩] 0 0 1 0) = true := by
    simp [comboLe, comboAt_pp_score]
  rw [hcombos]
  exact List.mergeSort_of_sorted (List.pairwise_pair.mpr hle)

theorem ppEval5 : findBestCombinationsJS [⟨0, 0⟩, ⟨0, 0⟩] [⟨0, 0⟩] 0 0 5 =
    [comboAt [⟨0, 0⟩, ⟨0, 0⟩] [⟨0, 0⟩] 0 0 0 0,
     comboAt [⟨0, 0⟩, ⟨0, 0⟩] [⟨0, 0⟩] 0 0 1 0] := by
  unfold findBestCombinationsJS jsSlice
  rw [ppSorted]
  norm_num

/-- Witness for C4 at two identical A points (equal scores), topN 5. -/
theorem c4_witness :
    ∃ (h1 : 0 < (findBestCombinationsJS [⟨0, 0⟩, ⟨0, 0⟩] [⟨0, 0⟩] 0 0
        5).length)
      (h2 : 1 < (findBestCombinationsJS [⟨0, 0⟩, ⟨0, 0⟩] [⟨0, 0⟩] 0 0
        5).length),
      ((findBestCombinationsJS [⟨0, 0⟩, ⟨0, 0⟩] [⟨0, 0⟩] 0 0 5).get
        ⟨0, h1⟩).score =
        ((findBestCombinationsJS [⟨0, 0⟩, ⟨0, 0⟩] [⟨0, 0⟩] 0 0 5).get
          ⟨1, h2⟩).score ∧
      ((0 : ℕ) < 1 ↔ pairLt
        (((findBestCombinationsJS [⟨0, 0⟩, ⟨0, 0⟩] [⟨0, 0⟩] 0 0 5).get
          ⟨0, h1⟩).indexA,
          ((findBestCombinationsJS [⟨0, 0⟩, ⟨0, 0⟩] [⟨0, 0⟩] 0 0 5).get
            ⟨0, h1⟩).indexB)
        (((findBestCombinationsJS [⟨0, 0⟩, ⟨0, 0⟩] [⟨0, 0⟩] 0 0 5).get
          ⟨1, h2⟩).indexA,
          ((findBestCombinationsJS [⟨0, 0⟩, ⟨0, 0⟩] [⟨0, 0⟩] 0 0 5).get
            ⟨1, h2⟩).indexB)) := by
  have hE := ppEval5
  have h1 : 0 < (findBestCombinationsJS [⟨0, 0⟩, ⟨0, 0⟩] [⟨0, 0⟩] 0 0
      5).length := by
    rw [hE]
    norm_num
  have h2 : 1 < (findBestCombinationsJS [⟨0, 0⟩, ⟨0, 0⟩] [⟨0, 0⟩] 0 0
      5).length := by
    rw [hE]
    norm_num
  have g0 : (findBestCombinationsJS [⟨0, 0⟩, ⟨0, 0⟩] [⟨0, 0⟩] 0 0 5).get
      ⟨0, h1⟩ = comboAt [⟨0, 0⟩, ⟨0, 0⟩] [⟨0, 0⟩] 0 0 0 0 := by
    simp only [List.get_eq_getElem]
    rw [List.getElem_of_eq hE]
    simp
  have g1 : (findBestCombinationsJS [⟨0, 0⟩, ⟨0, 0⟩] [⟨0, 0⟩] 0 0 5).get
      ⟨1, h2⟩ = comboAt [⟨0, 0⟩, ⟨0, 0⟩] [⟨0, 0⟩] 0 0 1 0 := by
    simp only [List.get_eq_getElem]
    rw [List.getElem_of_eq hE]
    simp
  have heq : ((findBestCombinationsJS [⟨0, 0⟩, ⟨0, 0⟩] [⟨0, 0⟩] 0 0 5).get
      ⟨0, h1⟩).score =
      ((findBestCombinationsJS [⟨0, 0⟩, ⟨0, 0⟩] [⟨0, 0⟩] 0 0 5).get
        ⟨1, h2⟩).score := by
    rw [g0, g1, comboAt_pp_score, comboAt_pp_score]
  exact ⟨h1, h2, heq,
    c4_tie_encounter_order [⟨0, 0⟩, ⟨0, 0⟩] [⟨0, 0⟩] 0 0 5 0 1 h1 h2 heq⟩

/-- C5 (confirmed).  The offload decision is true exactly when
`n·m ≥ 10000`; in particular it is false at `n·m = 9999` (e.g. 99×101)
and true at `n·m = 10000` (e.g. 100×100). -/
theorem c5_shouldUseWorker_iff :
    (∀ n m : ℕ, shouldUseWorker n m = true ↔ 10000 ≤ n * m) ∧
      shouldUseWorker 99 101 = false ∧ shouldUseWorker 100 100 = true := by
  refine ⟨?_, by decide, by decide⟩
  intro n m
  simp [shouldUseWorker, WORKER_THRESHOLD]

/-- Unfolding equation for `progressStep`. -/
theorem progressStep_eq (total : ℕ) (last : ℤ) (acc : List ℤ) (k : ℕ) :
    progressStep total (last, acc) k =
      if last < ⌊((k : ℝ) + 1) / (total : ℝ) * 100⌋
      then (⌊((k : ℝ) + 1) / (total : ℝ) * 100⌋,
            acc ++ [⌊((k : ℝ) + 1) / (total : ℝ) * 100⌋])
      else (last, acc) := rfl

/-- Invariant of the progress fold: the emitted list is strictly
increasing, every emitted value lies in `[0, lastProgress]`, and
`lastProgress` stays within `[0, 100]`. -/
theorem progressFold_inv (total : ℕ) (ks : List ℕ) (hks : ∀ k ∈ ks, k < total)
    (last : ℤ) (acc : List ℤ) (h1 : List.Chain' (· < ·) acc)
    (h2 : ∀ p ∈ acc, 0 ≤ p ∧ p ≤ last) (h3 : 0 ≤ last) (h4 : last ≤ 100) :
    List.Chain' (· < ·) (ks.foldl (progressStep total) (last, acc)).2 ∧
      (∀ p ∈ (ks.foldl (progressStep total) (last, acc)).2,
        0 ≤ p ∧ p ≤ (ks.foldl (progressStep total) (last, acc)).1) ∧
      0 ≤ (ks.foldl (progressStep total) (last, acc)).1 ∧
      (ks.foldl (progressStep total) (last, acc)).1 ≤ 100 := by
  induction ks generalizing last acc with
  | nil => exact ⟨h1, h2, h3, h4⟩
  | cons k ks ih =>
    have hk : k < total := hks k (List.mem_cons_self k ks)
    have hkt : ∀ j ∈ ks, j < total := fun j hj => hks j (List.mem_cons_of_mem k hj)
    have hv0 : (0 : ℤ) ≤ ⌊((k : ℝ) + 1) / (total : ℝ) * 100⌋ := by
      apply Int.floor_nonneg.mpr
      positivity
    have hv100 : ⌊((k : ℝ) + 1) / (total : ℝ) * 100⌋ ≤ 100 := by
      have h0 : (0 : ℝ) < total := by exact_mod_cast Nat.pos_of_ne_zero (by omega)
      have hle : ((k : ℝ) + 1) ≤ total := by exact_mod_cast hk
      have hx : ((k : ℝ) + 1) / (total : ℝ) * 100 ≤ 100 := by
        have hq : ((k : ℝ) + 1) / total ≤ 1 := by
          rw [div_le_one h0]; exact hle
        nlinarith
      have := Int.floor_le_floor hx
      simpa using this
    rw [List.foldl_cons, progressStep_eq]
    by_cases hlt : last < ⌊((k : ℝ) + 1) / (total : ℝ) * 100⌋
    · rw [if_pos hlt]
      apply ih hkt
      · rw [List.chain'_append]
        refine ⟨h1, List.chain'_singleton _, ?_⟩
        intro x hx y hy
        have hxa : x ∈ acc := List.mem_of_mem_getLast? hx
        have hyv : y = ⌊((k : ℝ) + 1) / (total : ℝ) * 100⌋ := by
          have := hy
          simp at this
          omega
        subst hyv
        exact lt_of_le_of_lt (h2 x hxa).2 hlt
      · intro p hp
        rcases List.mem_append.mp hp with hp | hp
        · exact ⟨(h2 p hp).1, le_trans (h2 p hp).2 (le_of_lt hlt)⟩
        · have hpv : p = ⌊((k : ℝ) + 1) / (total : ℝ) * 100⌋ := by
            simpa using hp
          subst hpv
          exact ⟨hv0, le_refl _⟩
      · exact hv0
      · exact hv100
    · rw [if_neg hlt]
      exact ih hkt last acc h1 h2 h3 h4

/-- The percent values reported by the JS fallback loop are strictly
increasing. -/
theorem progressSeq_chain_lt (total : ℕ) :
    List.Chain' (· < ·) (progressSeq total) := by
  have := progressFold_inv total (List.range total)
    (fun k hk => List.mem_range.mp hk) 0 [] List.chain'_nil
    (fun p hp => absurd hp (List.not_mem_nil p)) (le_refl 0) (by norm_num)
  exact this.1

/-- Every percent value reported by the JS fallback loop lies in `[0, 100]`. -/
theorem progressSeq_bounds (total : ℕ) :
    ∀ p ∈ progressSeq total, 0 ≤ p ∧ p ≤ 100 := by
  intro p hp
  have h := progressFold_inv total (List.range total)
    (fun k hk => List.mem_range.mp hk) 0 [] List.chain'_nil
    (fun q hq => absurd hq (List.not_mem_nil q)) (le_refl 0) (by norm_num)
  exact ⟨(h.2.1 p hp).1, le_trans (h.2.1 p hp).2 h.2.2.2⟩

/-- C6 (confirmed).  For either request kind, in both the WASM and the
JS-fallback branches, the worker's messages for a request `id` consist of
zero or more progress events carrying that `id`, with percents in
`[0, 100]` in nondecreasing order, followed by exactly one terminal event
(a `result` or an `error`) carrying the same `id`; all progress events
precede the terminal event. -/
theorem c6_worker_message_protocol (wasmR : Bool)
    (wasmFind : Except String (List Combo))
    (wasmMid : Except String (List (ℝ × ℝ)))
    (id : ℕ) (A B : List Point) (tlat tlon : ℝ) (topN : ℤ) :
    (∃ ps t, workerFindMessages wasmR wasmFind id A B tlat tlon topN =
        ps.map (WMsg.progress id) ++ [t] ∧
      ((∃ d, t = WMsg.result id d) ∨ ∃ e, t = WMsg.error id e) ∧
      List.Chain' (· ≤ ·) ps ∧ ∀ p ∈ ps, 0 ≤ p ∧ p ≤ 100) ∧
    (∃ ps t, workerMidMessages wasmR wasmMid id A B =
        ps.map (WMsg.progress id) ++ [t] ∧
      ((∃ d, t = WMsg.result id d) ∨ ∃ e, t = WMsg.error id e) ∧
      List.Chain' (· ≤ ·) ps ∧ ∀ p ∈ ps, 0 ≤ p ∧ p ≤ 100) := by
  constructor
  · cases wasmR with
    | false =>
      refine ⟨progressSeq (A.length * B.length), _, rfl, Or.inl ⟨_, rfl⟩, ?_, ?_⟩
      · exact List.Chain'.imp (fun a b hab => le_of_lt hab)
          (progressSeq_chain_lt _)
      · exact progressSeq_bounds _
    | true =>
      cases wasmFind with
      | ok results =>
        refine ⟨[0, 100], _, rfl, Or.inl ⟨_, rfl⟩, ?_, ?_⟩
        · simp [List.chain'_cons, List.chain'_singleton]
        · intro p hp
          rcases List.mem_cons.mp hp with rfl | hp
          · exact ⟨le_refl 0, by norm_num⟩
          · rcases List.mem_cons.mp hp with rfl | hp
            · exact ⟨by norm_num, le_refl 100⟩
            · exact absurd hp (List.not_mem_nil p)
      | error e =>
        refine ⟨[0], _, rfl, Or.inr ⟨e, rfl⟩, List.chain'_singleton _, ?_⟩
        intro p hp
        rcases List.mem_cons.mp hp with rfl | hp
        · exact ⟨le_refl 0, by norm_num⟩
        · exact absurd hp (List.not_mem_nil p)
  -- second conjunct: the calculateAllMidpoints handler
  · cases wasmR with
    | false =>
      refine ⟨progressSeq (A.length * B.length), _, rfl, Or.inl ⟨_, rfl⟩, ?_, ?_⟩
      · exact List.Chain'.imp (fun a b hab => le_of_lt hab)
          (progressSeq_chain_lt _)
      · exact progressSeq_bounds _
    | true =>
      cases wasmMid with
      | ok mids =>
        refine ⟨[0, 100], _, rfl, Or.inl ⟨_, rfl⟩, ?_, ?_⟩
        · simp [List.chain'_cons, List.chain'_singleton]
        · intro p hp
          rcases List.mem_cons.mp hp with rfl | hp
          · exact ⟨le_refl 0, by norm_num⟩
          · rcases List.mem_cons.mp hp with rfl | hp
            · exact ⟨by norm_num, le_refl 100⟩
            · exact absurd hp (List.not_mem_nil p)
      | error e =>
        refine ⟨[0], _, rfl, Or.inr ⟨e, rfl⟩, List.chain'_singleton _, ?_⟩
        intro p hp
        rcases List.mem_cons.mp hp with rfl | hp
        · exact ⟨le_refl 0, by norm_num⟩
        · exact absurd hp (List.not_mem_nil p)

/-- Appending a request message leaves the init count unchanged. -/
theorem initCount_append_request (p : List (PostedMsg × Bool)) (c : ℕ)
    (b : Bool) : initCount (p ++ [(PostedMsg.request c, b)]) = initCount p := by
  simp [initCount, List.filter_append, isInitMsg]

/-- Appending the init message increments the init count. -/
theorem initCount_append_init (p : List (PostedMsg × Bool)) (b : Bool) :
    initCount (p ++ [(PostedMsg.initMsg, b)]) = initCount p + 1 := by
  simp [initCount, List.filter_append, isInitMsg]

/-- C7 counterexample: from a fresh session with two concurrent callers,
the trace "caller 0 enters `init()` and creates the worker; caller 1
enters `init()` while that initialization is still in flight and is
resolved immediately by the `if (this.worker)` guard; caller 1 posts its
request" reaches a state in which a request message has been posted while
`readyReceived` is still false — the second caller bypasses, rather than
shares, the in-flight initialization, refuting the claim that no request
message is posted before the worker's ready reply is received. -/
theorem c7_counterexample :
    ∃ s : DState,
      Relation.ReflTransGen DStep
        ⟨false, false, [CallerPhase.started, CallerPhase.started], []⟩ s ∧
      s.readyReceived = false ∧
      (PostedMsg.request 1, false) ∈ s.posted := by
  refine ⟨⟨true, false,
    [CallerPhase.awaitingReady, CallerPhase.requested],
    [(PostedMsg.initMsg, false), (PostedMsg.request 1, false)]⟩, ?_, rfl, ?_⟩
  · have h1 : DStep
        ⟨false, false, [CallerPhase.started, CallerPhase.started], []⟩
        ⟨true, false, [CallerPhase.awaitingReady, CallerPhase.started],
          [(PostedMsg.initMsg, false)]⟩ :=
      DStep.initCreate _ 0 rfl rfl
    have h2 : DStep
        ⟨true, false, [CallerPhase.awaitingReady, CallerPhase.started],
          [(PostedMsg.initMsg, false)]⟩
        ⟨true, false, [CallerPhase.awaitingReady, CallerPhase.initDone],
          [(PostedMsg.initMsg, false)]⟩ :=
      DStep.initBypass _ 1 rfl rfl
    have h3 : DStep
        ⟨true, false, [CallerPhase.awaitingReady, CallerPhase.initDone],
          [(PostedMsg.initMsg, false)]⟩
        ⟨true, false, [CallerPhase.awaitingReady, CallerPhase.requested],
          [(PostedMsg.initMsg, false), (PostedMsg.request 1, false)]⟩ :=
      DStep.sendReq _ 1 rfl
    exact Relation.ReflTransGen.head h1
      (Relation.ReflTransGen.head h2 (Relation.ReflTransGen.single h3))
  · exact List.mem_cons_of_mem _ (List.mem_cons_self _ _)

/-- C7 (corrected; claim theorem).  What does hold of the dispatcher: in
any state reachable from a fresh session (no worker, ready not yet
received, any number of callers about to call `init()`, nothing posted),
the worker context is created at most once — the `{type: 'init'}`
message is posted at most once, and not at all while `this.worker` is
still null — so the single worker is reused across requests.  The part
of the original claim that fails is awaiting: a request message may be
posted before the ready reply (see the counterexample), because `init()`
resolves immediately whenever `this.worker` is non-null. -/
theorem c7_amended (cs : List CallerPhase) (s : DState)
    (h : Relation.ReflTransGen DStep ⟨false, false, cs, []⟩ s) :
    (s.workerExists = false → initCount s.posted = 0) ∧
      initCount s.posted ≤ 1 := by
  induction h with
  | refl => exact ⟨fun _ => rfl, by simp [initCount]⟩
  | tail hab hbc ih =>
    obtain ⟨ih1, ih2⟩ := ih
    cases hbc with
    | initCreate c hc hw =>
      refine ⟨fun hf => (nomatch hf), ?_⟩
      rw [initCount_append_init, ih1 hw]
    | initBypass c hc hw =>
      exact ⟨fun hf => ih1 hf, ih2⟩
    | readyArrive hw hr =>
      exact ⟨fun hf => ih1 hf, ih2⟩
    | sendReq c hc =>
      refine ⟨fun hf => ?_, ?_⟩
      · rw [initCount_append_request]
        exact ih1 hf
      · rw [initCount_append_request]
        exact ih2

/-- Witness for C7: the amended invariant, instantiated on the one-step
trace in which a single caller creates the worker. -/
theorem c7_witness : initCount [(PostedMsg.initMsg, false)] ≤ 1 := by
  have h := c7_amended [CallerPhase.started]
    ⟨true, false, [CallerPhase.awaitingReady], [(PostedMsg.initMsg, false)]⟩
    (Relation.ReflTransGen.single
      (DStep.initCreate ⟨false, false, [CallerPhase.started], []⟩ 0 rfl rfl))
  exact h.2

/-- Grid-file loads that all yield no pairs make the radius loop return
no candidates, for every radius list. -/
theorem gatherLoop_of_empty_loads (env : ℤ × ℤ → Except String (List CityPair))
    (gIdx : ℤ × ℤ → Bool) (lat lng : ℝ) (maxResults : ℕ)
    (h : ∀ k, loadGridFile env k = []) :
    ∀ radii : List ℝ, gatherLoop env gIdx lat lng maxResults radii [] = [] := by
  intro radii
  induction radii with
  | nil => rfl
  | cons r rs ih =>
    have hflat : (getNearbyGridKeys gIdx lat lng r).flatMap
        (fun k => loadGridFile env k) = [] := by
      simp only [List.flatMap_eq_nil_iff]
      intro k _
      exact h k
    simp only [gatherLoop, hflat]
    split_ifs with h1 h2
    · exact ih
    · rfl
    · exact ih

/-- Evaluation of `getNearbyGridKeys` at target `(0, 0)`, radius 500 km,
with every key present in the grid index: four grid cells are queried. -/
theorem getNearbyGridKeys_eval :
    getNearbyGridKeys (fun _ => true) 0 0 500 =
      [(17, 35), (17, 36), (18, 35), (18, 36)] := by
  have hcos : Real.cos ((0 : ℝ) * π / 180) = 1 := by
    rw [show (0 : ℝ) * π / 180 = 0 by ring]
    exact Real.cos_zero
  have hA : (⌊((0 : ℝ) - 500 / 111 + 90) / GRID_SIZE⌋ : ℤ) = 17 := by
    rw [GRID_SIZE, Int.floor_eq_iff]
    constructor
    · norm_num
    · norm_num
  have hB : (⌊((0 : ℝ) + 500 / 111 + 90) / GRID_SIZE⌋ : ℤ) = 18 := by
    rw [GRID_SIZE, Int.floor_eq_iff]
    constructor
    · norm_num
    · norm_num
  have hC : (⌊((0 : ℝ) - 500 / (111 * Real.cos ((0 : ℝ) * π / 180)) + 180) /
      GRID_SIZE⌋ : ℤ) = 35 := by
    rw [hcos, GRID_SIZE, Int.floor_eq_iff]
    constructor
    · norm_num
    · norm_num
  have hD : (⌊((0 : ℝ) + 500 / (111 * Real.cos ((0 : ℝ) * π / 180)) + 180) /
      GRID_SIZE⌋ : ℤ) = 36 := by
    rw [hcos, GRID_SIZE, Int.floor_eq_iff]
    constructor
    · norm_num
    · norm_num
  have hmax : maxLngBuckets = (72 : ℤ) := by
    rw [maxLngBuckets, GRID_SIZE, show (360 : ℝ) / 5 = ((72 : ℤ) : ℝ) by norm_num]
    exact Int.ceil_intCast 72
  simp only [getNearbyGridKeys]
  rw [hA, hB, hC, hD]
  simp only [normalizeLngB, hmax]
  decide

/-- C8 counterexample: with target `(0, 0)` and the 500 km radius round
querying four grid cells (so fetches are attempted), an environment in
which every grid-file fetch fails makes `findBestCombinations` resolve
successfully with the empty list — indistinguishable from a genuine
"no candidates" answer — instead of propagating an error. -/
theorem c8_counterexample :
    getNearbyGridKeys (fun _ => true) 0 0 500 ≠ [] ∧
      findBestCombinationsCities (fun _ => Except.error "fetch failed")
        (fun _ => true) 0 0 50 = Except.ok [] := by
  constructor
  · rw [getNearbyGridKeys_eval]
    simp
  · have h := gatherLoop_of_empty_loads
      (fun _ => Except.error "fetch failed") (fun _ => true) 0 0 50
      (fun _ => rfl) searchRadii
    simp only [findBestCombinationsCities, h, List.map_nil,
      List.mergeSort_nil, List.take_nil]

/-- C8 (corrected; claim theorem).  What the grid query path actually
does: the search promise always fulfills (`Except.ok`), for every fetch
environment; a query over successfully loaded cells that all contain no
pairs yields the valid empty answer `ok []`; and a failed fetch of a grid
cell is converted by `loadGridFile`'s catch into the empty cell `[]` —
load failures are therefore silently absorbed into an empty or partial
answer, never propagated as an error, refuting the error-propagation half
of the original claim. -/
theorem c8_error_swallowed (env : ℤ × ℤ → Except String (List CityPair))
    (gIdx : ℤ × ℤ → Bool) (tlat tlng : ℝ) (maxResults : ℕ) :
    (∃ res, findBestCombinationsCities env gIdx tlat tlng maxResults =
      Except.ok res) ∧
    ((∀ k, env k = Except.ok []) →
      findBestCombinationsCities env gIdx tlat tlng maxResults =
        Except.ok []) ∧
    (∀ k e, env k = Except.error e → loadGridFile env k = []) := by
  refine ⟨⟨_, rfl⟩, ?_, ?_⟩
  · intro hok
    have hload : ∀ k, loadGridFile env k = [] := by
      intro k
      simp [loadGridFile, hok k]
    have h := gatherLoop_of_empty_loads env gIdx tlat tlng maxResults hload
      searchRadii
    simp only [findBestCombinationsCities, h, List.map_nil,
      List.mergeSort_nil, List.take_nil]
  · intro k e he
    simp [loadGridFile, he]

/-- Witness for C8: the all-loads-succeed-and-are-empty branch of the
claim theorem, instantiated at target `(0, 0)` with an environment in
which every grid file exists and contains no pairs. -/
theorem c8_witness :
    findBestCombinationsCities (fun _ => Except.ok []) (fun _ => true)
      0 0 50 = Except.ok [] :=
  (c8_error_swallowed (fun _ => Except.ok []) (fun _ => true) 0 0 50).2.1
    fun _ => rfl

/-- Processing one neighbor preserves the two-map invariant. -/
theorem processNeighbor_inv (seeds : List (ℤ × ℤ)) (s : HState)
    (cd : ℝ) (nb : (ℤ × ℤ) × ℝ) (h : MapsInv seeds s) :
    MapsInv seeds (processNeighbor s cd nb) := by
  obtain ⟨h1, h2⟩ := h
  simp only [processNeighbor]
  by_cases h400 : 400 ≤ cd + nb.2
  · rw [if_pos h400]; exact ⟨h1, h2⟩
  rw [if_neg h400]
  by_cases hshort : hasShorter s.tileDistances nb.1 (cd + nb.2) = true
  · rw [if_pos hshort]; exact ⟨h1, h2⟩
  rw [if_neg hshort]
  by_cases hgreen : s.tileGrid nb.1 = some TColor.green
  · rw [if_pos hgreen]; exact ⟨h1, h2⟩
  rw [if_neg hgreen]
  constructor
  · intro k hk
    have hne : k ≠ nb.1 := by
      intro heq
      exact hgreen (heq ▸ (h1 k hk).1)
    simp only [if_neg hne]
    exact h1 k hk
  · intro k d hd hks
    by_cases hke : k = nb.1
    · simp only [if_pos hke] at hd
      have hdv : cd + nb.2 = d := Option.some_injective ℝ hd
      rw [← hdv]
      exact lt_of_not_le h400
    · simp only [if_neg hke] at hd
      exact h2 k d hd hks

/-- Folding a neighbor list preserves the two-map invariant. -/
theorem foldNeighbors_inv (seeds : List (ℤ × ℤ)) (cd : ℝ) :
    ∀ (l : List ((ℤ × ℤ) × ℝ)) (s : HState), MapsInv seeds s →
      MapsInv seeds (l.foldl (fun t nb => processNeighbor t cd nb) s) := by
  intro l
  induction l with
  | nil => intro s h; exact h
  | cons nb l ih =>
    intro s h
    exact ih _ (processNeighbor_inv seeds s cd nb h)

/-- One loop iteration preserves the two-map invariant. -/
theorem floodStep_inv (seeds : List (ℤ × ℤ)) (s : HState)
    (h : MapsInv seeds s) : MapsInv seeds (floodStep s) := by
  unfold floodStep
  cases hq : s.queue[s.queueIndex]? with
  | none => exact h
  | some cur =>
    simp only []
    split_ifs with hmax
    · exact h
    · exact foldNeighbors_inv seeds cur.2 _ _ h

/-- The whole loop preserves the two-map invariant. -/
theorem floodLoop_inv (seeds : List (ℤ × ℤ)) :
    ∀ (fuel : ℕ) (s : HState), MapsInv seeds s →
      MapsInv seeds (floodLoop fuel s) := by
  intro fuel
  induction fuel with
  | zero => intro s h; exact h
  | succ fuel ih =>
    intro s h
    rw [floodLoop]
    split_ifs with hlen
    · exact ih _ (floodStep_inv seeds s h)
    · exact h

/-- The initial state satisfies the two-map invariant. -/
theorem initialHState_inv (mids : List (ℝ × ℝ)) :
    MapsInv (seedKeys mids) (initialHState mids) := by
  constructor
  · intro k hk
    constructor
    · simp [initialHState, hk]
    · simp [initialHState, hk]
  · intro k d hd hks
    simp only [initialHState, if_neg hks] at hd
    exact absurd hd (by simp)

/-- Processing one neighbor can only leave a recorded distance unchanged
or replace it with a strictly smaller value, never drop or increase it. -/
theorem processNeighbor_dist_mono (s : HState) (cd : ℝ) (nb : (ℤ × ℤ) × ℝ)
    (k : ℤ × ℤ) (d : ℝ) (hd : s.tileDistances k = some d) :
    ∃ d', (processNeighbor s cd nb).tileDistances k = some d' ∧
      (d' = d ∨ d' < d) := by
  simp only [processNeighbor]
  by_cases h400 : 400 ≤ cd + nb.2
  · rw [if_pos h400]; exact ⟨d, hd, Or.inl rfl⟩
  rw [if_neg h400]
  by_cases hshort : hasShorter s.tileDistances nb.1 (cd + nb.2) = true
  · rw [if_pos hshort]; exact ⟨d, hd, Or.inl rfl⟩
  rw [if_neg hshort]
  by_cases hgreen : s.tileGrid nb.1 = some TColor.green
  · rw [if_pos hgreen]; exact ⟨d, hd, Or.inl rfl⟩
  rw [if_neg hgreen]
  by_cases hke : k = nb.1
  · refine ⟨cd + nb.2, by simp [if_pos hke], Or.inr ?_⟩
    rw [hke] at hd
    simp only [hasShorter, hd] at hshort
    exact lt_of_not_le (by simpa using hshort)
  · exact ⟨d, by simp [if_neg hke, hd], Or.inl rfl⟩

/-- Folding a neighbor list can only decrease recorded distances. -/
theorem foldNeighbors_dist_mono (cd : ℝ) :
    ∀ (l : List ((ℤ × ℤ) × ℝ)) (s : HState) (k : ℤ × ℤ) (d : ℝ),
      s.tileDistances k = some d →
      ∃ d', (l.foldl (fun t nb => processNeighbor t cd nb) s).tileDistances k
          = some d' ∧ (d' = d ∨ d' < d) := by
  intro l
  induction l with
  | nil => intro s k d hd; exact ⟨d, hd, Or.inl rfl⟩
  | cons nb l ih =>
    intro s k d hd
    obtain ⟨d1, hd1, hcmp1⟩ := processNeighbor_dist_mono s cd nb k d hd
    obtain ⟨d2, hd2, hcmp2⟩ := ih _ k d1 hd1
    refine ⟨d2, hd2, ?_⟩
    rcases hcmp2 with rfl | h2
    · exact hcmp1
    · rcases hcmp1 with rfl | h1
      · exact Or.inr h2
      · exact Or.inr (lt_trans h2 h1)

/-- One loop iteration can only decrease recorded distances. -/
theorem floodStep_dist_mono (s : HState) (k : ℤ × ℤ) (d : ℝ)
    (hd : s.tileDistances k = some d) :
    ∃ d', (floodStep s).tileDistances k = some d' ∧ (d' = d ∨ d' < d) := by
  unfold floodStep
  cases hq : s.queue[s.queueIndex]? with
  | none => exact ⟨d, hd, Or.inl rfl⟩
  | some cur =>
    simp only []
    split_ifs with hmax
    · exact ⟨d, hd, Or.inl rfl⟩
    · exact foldNeighbors_dist_mono cur.2 _ _ k d hd

/-- C9 (confirmed).  At every stage of the flood fill (any fuel), for any
midpoint list: every seeded cell still has color `green` and recorded
distance 0 — the fill never overwrites it; every non-seed cell's
recorded cumulative distance is strictly below the 400 km cutoff; and one
further loop iteration from the reached state can only keep each recorded
distance or replace it with a strictly smaller value. -/
theorem c9_heatmap_invariant (mids : List (ℝ × ℝ)) (fuel : ℕ) :
    (∀ k ∈ seedKeys mids,
      (floodLoop fuel (initialHState mids)).tileGrid k = some TColor.green ∧
      (floodLoop fuel (initialHState mids)).tileDistances k = some 0) ∧
    (∀ k d,
      (floodLoop fuel (initialHState mids)).tileDistances k = some d →
      k ∉ seedKeys mids → d < 400) ∧
    (∀ k d,
      (floodLoop fuel (initialHState mids)).tileDistances k = some d →
      ∃ d', (floodStep (floodLoop fuel (initialHState mids))).tileDistances k
          = some d' ∧ (d' = d ∨ d' < d)) := by
  have hinv := floodLoop_inv (seedKeys mids) fuel (initialHState mids)
    (initialHState_inv mids)
  exact ⟨hinv.1, hinv.2, fun k d hd =>
    floodStep_dist_mono (floodLoop fuel (initialHState mids)) k d hd⟩

/-- Witness for C9: the invariant instantiated on a single midpoint at
the origin, before any fill step. -/
theorem c9_witness :
    (floodLoop 0 (initialHState [((0 : ℝ), (0 : ℝ))])).tileGrid
      (getTileKey 0 0 latStep lngStep) = some TColor.green :=
  ((c9_heatmap_invariant [((0 : ℝ), (0 : ℝ))] 0).1
    (getTileKey 0 0 latStep lngStep)
    (List.mem_map.mpr ⟨((0 : ℝ), (0 : ℝ)), List.mem_singleton.mpr rfl, rfl⟩)).1

end
